import Mathlib

/-!
Verification development for the class-checking core of a C/C++ lint tool
(`lib/checkclass.cpp`, `lib/checkclass.h`).

The token stream is shallowly embedded as `List String` (one entry per
token).  Token pointers become indices into that list; `link()` becomes a
bracket-matching search; the pattern matcher (`Token::Match`,
`Token::findmatch`) — an external collaborator whose contract the spec
gives in §4.A — is embedded as a small pattern type over literal tokens,
`%var%`-style name wildcards and single-token wildcards.

Every definition below follows the corresponding C++ function statement by
statement; loops become fuelled recursion, mutation becomes explicit state
passing, and out-of-bounds pointer dereferences (which the C++ never
guards) are resolved by total lookups returning the empty token.
-/

namespace CheckClass

/-- A token is its text.  The token stream of the translation unit. -/
abbrev Toks := List String

/-- `tok->str()` at index `i`; the empty string stands for a null token. -/
def strAt (toks : Toks) (i : Nat) : String :=
  toks.getD i ""

/-- First character of a token is a letter or underscore: the `%var%` /
`%type%` name test of the external matcher (spec §4.A). -/
def isNameTok (s : String) : Bool :=
  match s.data with
  | [] => false
  | c :: _ => c.isAlpha || c = '_'

/-- Scan forward from relative position 0 for the bracket that closes the
bracket just before, keeping a nesting depth.  Returns the relative index
of the matching closer. -/
def matchClose (openS closeS : String) : Toks → Nat → Option Nat
  | [], _ => none
  | t :: ts, depth =>
    if t = closeS then
      if depth = 0 then some 0
      else (matchClose openS closeS ts (depth - 1)).map Nat.succ
    else if t = openS then
      (matchClose openS closeS ts (depth + 1)).map Nat.succ
    else
      (matchClose openS closeS ts depth).map Nat.succ

/-- `tok->link()`: for an opening bracket at `i`, the index of its matching
closing bracket; `none` for non-brackets or unbalanced streams. -/
def link (toks : Toks) (i : Nat) : Option Nat :=
  let rel (o c : String) : Option Nat :=
    (matchClose o c (toks.drop (i + 1)) 0).map (fun k => i + 1 + k)
  match toks.getD i "" with
  | "(" => rel "(" ")"
  | "\x7b" => rel "\x7b" "\x7d"
  | "<" => rel "<" ">"
  | _ => none

/-- One slot of a search pattern: a literal token, a name (`%var%`),
any one token (`%any%`), or an alternation of literals. -/
inductive Pat where
  | lit (s : String)
  | name
  | anyTok
  | oneOf (ss : List String)
deriving DecidableEq, Repr

/-- Does the single token `s` fit the slot `p`? -/
def Pat.fits (p : Pat) (s : String) : Bool :=
  match p with
  | .lit t => s = t
  | .name => isNameTok s
  | .anyTok => s ≠ ""
  | .oneOf ss => ss.contains s

/-- `Token::Match(tok_at_i, pattern)`: every slot fits in sequence. -/
def matchAt (toks : Toks) (i : Nat) (ps : List Pat) : Bool :=
  (List.range ps.length).all fun k =>
    (ps.getD k (.lit "")).fits (strAt toks (i + k))

/-- `Token::findmatch(start, pattern, end)`: first index `j ≥ i` (and
`j < bound` when a bound is given) where the pattern matches. -/
def findPat (toks : Toks) (ps : List Pat) (i : Nat) (bound : Option Nat) : Option Nat :=
  let stop := bound.getD toks.length
  let rec go : Nat → Nat → Option Nat
    | 0, _ => none
    | fuel + 1, j =>
      if j ≥ stop ∨ j ≥ toks.length then none
      else if matchAt toks j ps then some j
      else go fuel (j + 1)
  go (toks.length + 1) i

/-- The token segment `[a, b)` of the stream. -/
def segment (toks : Toks) (a b : Nat) : Toks :=
  (toks.drop a).take (b - a)

/-! ## Data model (`checkclass.h`) -/

/-- Access control (`CheckClass::AccessControl`). -/
inductive AccessControl where
  | Public
  | Protected
  | Private
deriving DecidableEq, Repr

/-- Member-variable record (`CheckClass::Var`); the intrusive `next`
pointer becomes list structure, head = most recently linked-in record. -/
structure Var where
  name : String
  init : Bool
  priv : Bool
  isMutable : Bool
  isStatic : Bool
  isClass : Bool
deriving DecidableEq, Repr

/-- Method classification (`CheckClass::Func::Type`). -/
inductive FuncType where
  | Constructor
  | CopyConstructor
  | OperatorEqual
  | Destructor
  | Function
deriving DecidableEq, Repr

/-- Method record (`CheckClass::Func`); token pointers are stream indices. -/
structure Func where
  tokenDef : Nat
  token : Nat
  access : AccessControl
  hasBody : Bool
  isInline : Bool
  isConst : Bool
  isVirtual : Bool
  isStatic : Bool
  isFriend : Bool
  isOperator : Bool
  type : FuncType
deriving DecidableEq, Repr

/-- The default-constructed `Func` (all flags clear, type `Function`). -/
def Func.default : Func :=
  { tokenDef := 0, token := 0, access := .Public, hasBody := false
    , isInline := false, isConst := false, isVirtual := false
    , isStatic := false, isFriend := false, isOperator := false
    , type := .Function }

/-- Scope record (`CheckClass::SpaceInfo`); `nest` is an arena index of the
enclosing scope, `classEnd` is `none` when the stream is unbalanced (a null
`link()` in the C++). -/
structure SpaceInfo where
  isNamespace : Bool
  className : String
  classDef : Nat
  classStart : Nat
  classEnd : Option Nat
  numConstructors : Nat
  functionList : List Func
  varlist : List Var
  derivedFrom : List String
  nest : Option Nat
  access : AccessControl
deriving DecidableEq, Repr

/-- A diagnostic, mirroring the reporting helpers at the bottom of
`checkclass.cpp` (token argument, then the message parameters). -/
inductive Diag where
  | noConstructor (tok : Nat) (classname : String) (isStruct : Bool)
  | uninitVar (tok : Nat) (classname varname : String)
  | operatorEqVar (tok : Nat) (classname varname : String)
  | operatorEqRetRefThis (tok : Nat)
  | virtualDestructor (tok : Nat) (base derived : String)
deriving DecidableEq, Repr

/-- The settings fields the embedded checks consult. -/
structure Settings where
  checkCodingStyle : Bool
  inconclusive : Bool
deriving DecidableEq, Repr

/-! ## `CheckClass::getVarList` (checkclass.cpp:317-486)

The loop body is factored into `gvlStep`; the production driver `gvlLoop`
prepends each new `Var` exactly as `varlist = new Var(..., varlist)` does,
while `gvlLoopOrd` appends, yielding the members in the order the scan
encounters them (source declaration order). -/

/-- Does the token contain a `:` anywhere? -/
def strHasColon (s : String) : Bool := s.data.contains ':'

/-- Does the token start with `:` (as `str()[0] == ':'` checks)? -/
def strHeadColon (s : String) : Bool :=
  match s.data with
  | c :: _ => c = ':'
  | [] => false

/-- The Borland `__published:` skip (checkclass.cpp:343-357): walk forward,
jumping whole `{...}` blocks, until the next token is an access label;
`none` when the walk falls off the stream (a null token, breaking the outer
loop). -/
def gvlSkipPublished (toks : Toks) : Nat → Nat → Option Nat
  | 0, _ => none
  | fuel + 1, i =>
    if i ≥ toks.length then none
    else
      match (if strAt toks i = "\x7b" then link toks i else some i) with
      | none => none
      | some j =>
        if (strAt toks (j + 1) = "private:" ∨ strAt toks (j + 1) = "protected:"
            ∨ strAt toks (j + 1) = "public:") then some j
        else gvlSkipPublished toks fuel (j + 1)

/-- The template-argument scan of the container branch
(checkclass.cpp:458-470): find the `>` that closes the opening `<`,
counting nesting. -/
def gvlFindGt (toks : Toks) : Nat → Nat → Int → Option Nat
  | 0, _, _ => none
  | fuel + 1, p, level =>
    if p ≥ toks.length then none
    else if strAt toks p = "<" then gvlFindGt toks fuel (p + 1) (level + 1)
    else if strAt toks p = ">" then
      if level - 1 = 0 then some p else gvlFindGt toks fuel (p + 1) (level - 1)
    else gvlFindGt toks fuel (p + 1) level

/-- The declaration parse at a statement start (checkclass.cpp:370-482):
qualifier stripping, the pattern ladder classifying the declaration, and
the resulting `Var` (if any). -/
def gvlParseDecl (stdType : String → Bool) (toks : Toks) (i : Nat) (priv : Bool) :
    Option Var :=
  let next := i + 1
  -- If next token contains a ":" it is not part of a variable declaration
  if strHasColon (strAt toks next) then none
  -- Borland C++: ignore properties
  else if strAt toks next = "__property" then none
  else
    let j := if strAt toks next = "const" then next + 1 else next
    let isStatic := strAt toks j = "static"
    let j := if isStatic then j + 1 else j
    let isMutable := strAt toks j = "mutable"
    let j := if isMutable then j + 1 else j
    let j := if strAt toks j = "const" then j + 1 else j
    let mk (varname : String) (isClass : Bool) : Option Var :=
      if varname ≠ "" ∧ varname ≠ "operator" then
        some ⟨varname, false, priv, isMutable, isStatic, isClass⟩
      else none
    -- Is it a variable declaration?
    if matchAt toks j [.name, .name, .oneOf [";", ":"]] then
      mk (strAt toks (j + 1)) (!stdType (strAt toks j))
    -- Structure?
    else if matchAt toks j [.oneOf ["struct", "union"], .name, .name, .lit ";"] then
      mk (strAt toks (j + 2)) false
    -- Pointer?
    else if matchAt toks j [.name, .lit "*", .name, .lit ";"] then
      mk (strAt toks (j + 2)) false
    else if matchAt toks j [.name, .name, .lit "*", .name, .lit ";"] then
      mk (strAt toks (j + 3)) false
    else if matchAt toks j [.name, .lit "::", .name, .lit "*", .name, .lit ";"] then
      mk (strAt toks (j + 4)) false
    -- Array?
    else if matchAt toks j [.name, .name, .lit "["] ∧ strAt toks (j + 1) ≠ "operator" then
      mk (strAt toks (j + 1)) (!stdType (strAt toks j))
    -- Pointer array?
    else if matchAt toks j [.name, .lit "*", .name, .lit "["] then
      mk (strAt toks (j + 2)) false
    else if matchAt toks j [.name, .lit "::", .name, .lit "*", .name, .lit "["] then
      mk (strAt toks (j + 4)) false
    -- std::string..
    else if matchAt toks j [.name, .lit "::", .name, .name, .lit ";"] then
      mk (strAt toks (j + 3)) true
    -- Container..
    else if matchAt toks j [.name, .lit "::", .name, .lit "<"]
        ∨ matchAt toks j [.name, .lit "<"] then
      match gvlFindGt toks (toks.length + 1) j 0 with
      | none => none
      | some k =>
        if matchAt toks k [.lit ">", .name, .lit ";"] then
          mk (strAt toks (k + 1)) true
        else if matchAt toks k [.lit ">", .lit "*", .name, .lit ";"] then
          mk (strAt toks (k + 2)) true
        else none
    else none

/-- Outcome of one iteration of the `getVarList` loop. -/
inductive GvlStep where
  | stop
  | next (i : Nat) (indent : Nat) (priv : Bool) (var? : Option Var)
deriving Repr

/-- One iteration of the `getVarList` token walk (checkclass.cpp:324-483). -/
def gvlStep (stdType : String → Bool) (toks : Toks) (i indent : Nat) (priv : Bool) :
    GvlStep :=
  let s := strAt toks i
  -- if (!tok->next()) break
  if i + 1 ≥ toks.length then .stop
  else
    -- brace depth bookkeeping
    let indent := if s = "\x7b" then indent + 1 else indent
    if s = "\x7d" ∧ indent ≤ 1 then .stop
    else
      let indent := if s = "\x7d" then indent - 1 else indent
      if indent ≠ 1 then .next (i + 1) indent priv none
      else if s = "__published:" then
        match gvlSkipPublished toks (toks.length + 1) i with
        | some j => .next (j + 1) indent false none
        | none => .stop
      else
        -- "private:" "public:" "protected:" etc
        let b := ¬strHeadColon s ∧ strHasColon s
        let priv := if b then s = "private:" else priv
        -- Search for start of statement..
        if ¬(s = ";" ∨ s = "\x7b" ∨ s = "\x7d") ∧ ¬b then .next (i + 1) indent priv none
        else .next (i + 1) indent priv (gvlParseDecl stdType toks i priv)

/-- The production `getVarList` loop: new records are linked in at the
head (`varlist = new Var(..., varlist)`, checkclass.cpp:480-481). -/
def gvlLoop (stdType : String → Bool) (toks : Toks) :
    Nat → Nat → Nat → Bool → List Var → List Var
  | 0, _, _, _, varlist => varlist
  | fuel + 1, i, indent, priv, varlist =>
    match gvlStep stdType toks i indent priv with
    | .stop => varlist
    | .next i' ind' priv' var? =>
      gvlLoop stdType toks fuel i' ind' priv'
        (match var? with
         | some v => v :: varlist
         | none => varlist)

/-- The same walk collecting the records in the order the scan encounters
them: source declaration order. -/
def gvlLoopOrd (stdType : String → Bool) (toks : Toks) :
    Nat → Nat → Nat → Bool → List Var → List Var
  | 0, _, _, _, varlist => varlist
  | fuel + 1, i, indent, priv, varlist =>
    match gvlStep stdType toks i indent priv with
    | .stop => varlist
    | .next i' ind' priv' var? =>
      gvlLoopOrd stdType toks fuel i' ind' priv'
        (match var? with
         | some v => varlist ++ [v]
         | none => varlist)

/-- `CheckClass::getVarList(tok1)`: the member list as the code returns it
(head of the list = the record most recently linked in). -/
def getVarList (stdType : String → Bool) (toks : Toks) (tok1 : Nat) : List Var :=
  gvlLoop stdType toks (toks.length + 1) tok1 0 (strAt toks tok1 ≠ "struct") []

/-- The member list in source declaration order (first declared first). -/
def getVarListDeclOrder (stdType : String → Bool) (toks : Toks) (tok1 : Nat) : List Var :=
  gvlLoopOrd stdType toks (toks.length + 1) tok1 0 (strAt toks tok1 ≠ "struct") []

/-! ## `CheckClass::argsMatch` (checkclass.cpp:743-826)

The two token cursors become list tails (`->next()` = `drop 1`,
`->tokAt(2)` = `drop 2`); the class path `"A :: B :: "` becomes the token
list `["A", "::", "B", "::"]`, so that removing the final `" :: "` and
name of the C++ string surgery is `dropLast 2`. -/

/-- The lock-step walk of `argsMatch`; `f`/`s` are the tails of the stream
starting at `first`/`second`.  `fuel` only pays for loop iterations. -/
def argsMatchLoop : Nat → List String → List String → List String → Nat → Bool
  | 0, _, _, _, _ => false
  | fuel + 1, f, s, path, depth =>
    match f, s with
    | f0 :: ftl, s0 :: stl =>
      -- while (first->str() == second->str())
      if f0 ≠ s0 then false
      -- at end of argument list
      else if f0 = ")" then true
      else
        let nf := ftl.headD ""
        let ns := stl.headD ""
        -- skip default value assignment
        if nf = "=" then argsMatchLoop fuel (f.drop 2) s path depth
        else
          -- common advance at the bottom of the loop body
          let step (f' s' : List String) : Bool :=
            argsMatchLoop fuel (f'.drop 1) (s'.drop 1) path depth
          -- definition missing variable name
          if nf = "," ∧ ns ≠ "," then step f (s.drop 1)
          else if nf = ")" ∧ ns ≠ ")" then step f (s.drop 1)
          -- function missing variable name
          else if ns = "," ∧ nf ≠ "," then step (f.drop 1) s
          else if ns = ")" ∧ nf ≠ ")" then step (f.drop 1) s
          -- argument list has different number of arguments
          else if s0 = ")" then false
          -- variable names are different
          else if isNameTok nf ∧ ((f.drop 2).headD "" = "," ∨ (f.drop 2).headD "" = ")"
                    ∨ (f.drop 2).headD "" = "=")
              ∧ isNameTok ns ∧ ((s.drop 2).headD "" = "," ∨ (s.drop 2).headD "" = ")")
              ∧ nf ≠ ns then
            -- skip variable names, then a default value assignment on the first side
            let f1 := f.drop 1
            let f2 := if (f1.drop 1).headD "" = "=" then f1.drop 2 else f1
            step f2 (s.drop 1)
          -- variable with class path
          else if depth ≠ 0 ∧ isNameTok nf then
            let param := path ++ [nf]
            if List.isPrefixOf param (s.drop 1) then step f (s.drop (2 * depth))
            else if depth > 1 then
              let shortPath := path.dropLast.dropLast
              let param2 := shortPath ++ [nf]
              if List.isPrefixOf param2 (s.drop 1) then step f (s.drop (2 * (depth - 1)))
              else step f s
            else step f s
          else step f s
    | _, _ => false

/-- `CheckClass::argsMatch(first, second, path, depth)`. -/
def argsMatch (f s path : List String) (depth : Nat) : Bool :=
  argsMatchLoop (f.length + s.length + 1) f s path depth

/-! ## `CheckClass::createSymbolDatabase` (checkclass.cpp:50-293)

The arena `spaces` owns the `SpaceInfo` records in creation order (so an
arena index is a `SpaceInfo*`); `mmap` embeds
`std::multimap<std::string, SpaceInfo*>` as its iteration sequence, with
`mmapInsert` placing a new pair at the `upper_bound` of its key exactly as
`std::multimap::insert` does: before the first strictly greater key, after
all equal ones. -/

/-- `std::string::operator<`: lexicographic comparison, embedded over the
character codes so that it evaluates by kernel reduction. -/
def strLtChars : List Char → List Char → Bool
  | [], [] => false
  | [], _ :: _ => true
  | _ :: _, [] => false
  | a :: as, b :: bs =>
    if a.toNat < b.toNat then true
    else if b.toNat < a.toNat then false
    else strLtChars as bs

/-- Key comparison of the `std::multimap<std::string, SpaceInfo*>`. -/
def strLt (a b : String) : Bool :=
  strLtChars a.data b.data

/-- `std::multimap` insertion: keys stay sorted, equal keys keep insertion
order. -/
def mmapInsert : List (String × Nat) → String → Nat → List (String × Nat)
  | [], k, v => [(k, v)]
  | (k', v') :: rest, k, v =>
    if strLt k k' then (k, v) :: (k', v') :: rest
    else (k', v') :: mmapInsert rest k v

/-- Replace the record at arena index `i` by `f` of it. -/
def updateSpace : List SpaceInfo → Nat → (SpaceInfo → SpaceInfo) → List SpaceInfo
  | [], _, _ => []
  | sp :: rest, 0, f => f sp :: rest
  | sp :: rest, n + 1, f => sp :: updateSpace rest n f

/-- Builder state: the arena, the multimap and the current scope
(`SpaceInfo *info`). -/
structure CsdbState where
  spaces : List SpaceInfo
  mmap : List (String × Nat)
  infoIdx : Option Nat
deriving DecidableEq, Repr

/-- The qualified-name walk shared by the base-class collector
(checkclass.cpp:83-90): consume `%var% ::` pairs, return the joined name
and the position of its final segment. -/
def csdbQualName (toks : Toks) : Nat → Nat → String × Nat
  | 0, p => (strAt toks p, p)
  | fuel + 1, p =>
    if isNameTok (strAt toks p) ∧ strAt toks (p + 1) = "::" then
      let (rest, p') := csdbQualName toks fuel (p + 2)
      (strAt toks p ++ " :: " ++ rest, p')
    else (strAt toks p, p)

/-- Walk from just after the class name to the body `{`
(checkclass.cpp:71-96), collecting the base-class list; `none` when the
stream ends first (the C++ would then dereference a null `classStart`). -/
def csdbBaseScan (toks : Toks) : Nat → Nat → List String → Option (Nat × List String)
  | 0, _, _ => none
  | fuel + 1, p, acc =>
    if p ≥ toks.length then none
    else if strAt toks p = "\x7b" then some (p, acc)
    else if (strAt toks p = ":" ∨ strAt toks p = ",")
        ∧ (strAt toks (p + 1) = "public" ∨ strAt toks (p + 1) = "protected"
           ∨ strAt toks (p + 1) = "private") then
      let (nm, p') := csdbQualName toks (toks.length + 1) (p + 2)
      csdbBaseScan toks fuel (p' + 1) (acc ++ [nm])
    else csdbBaseScan toks fuel (p + 1) acc

/-- The backward scan for exactly one of `virtual`/`static`/`friend`
before the method name (checkclass.cpp:168-195); first hit wins, a
statement boundary or the stream start stops the scan.  Returns
`(isVirtual, isStatic, isFriend)`. -/
def csdbFlagScan (toks : Toks) : Nat → Bool × Bool × Bool
  | 0 => (false, false, false)
  | j + 1 =>
    let pv := strAt toks j
    if pv = ";" ∨ pv = "\x7d" ∨ pv = "\x7b" ∨ pv = "public:" ∨ pv = "protected:"
        ∨ pv = "private:" then (false, false, false)
    else if pv = "virtual" then (true, false, false)
    else if pv = "static" then (false, true, false)
    else if pv = "friend" then (false, false, true)
    else csdbFlagScan toks j

/-- `Token::Match(l, ") const| X")` for `X` drawn from `finals`: a `)` at
`l`, an optional `const`, then one of the final tokens. -/
def matchRParenSuffix (toks : Toks) (l : Nat) (finals : List String) : Bool :=
  strAt toks l = ")" ∧
    (finals.contains (strAt toks (l + 1)) ∨
     (strAt toks (l + 1) = "const" ∧ finals.contains (strAt toks (l + 2))))

/-- The candidate loop of the out-of-line definition search
(checkclass.cpp:239-266): `findmatch` the qualified pattern, bail out past
a `::`-qualified foreign hit, advance to the name, accept on body shape
plus `argsMatch`, otherwise skip the candidate body and continue. -/
def csdbOolInner (toks : Toks) (pattern : List Pat) (funcArgs : List String)
    (path : List String) (depth : Nat) (bound : Option Nat) :
    Nat → Nat → Option Nat
  | 0, _ => none
  | fuel + 1, from_ =>
    match findPat toks pattern from_ bound with
    | none => none
    | some found =>
      -- skip other classes
      if strAt toks (found - 1) = "::" then none
      else
        -- goto function name
        match findPat toks [.anyTok, .lit "("] found none with
        | none => none
        | some fn =>
          let lk := link toks (fn + 1)
          if (match lk with
              | some l => matchRParenSuffix toks l ["\x7b"]
              | none => false) then
            if argsMatch funcArgs (toks.drop (fn + 2)) path depth then some fn
            else
              -- skip function body
              match findPat toks [.lit "\x7b"] fn none with
              | none => none
              | some b =>
                match link toks b with
                | none => none
                | some e => csdbOolInner toks pattern funcArgs path depth bound fuel e
          else
            csdbOolInner toks pattern funcArgs path depth bound fuel fn

/-- The nesting-chain loop of the out-of-line search
(checkclass.cpp:229-267): at each depth prepend the enclosing class name
to the search path and scan from the end of the class, bounded by the
next-outer scope's end. -/
def csdbOolOuter (toks : Toks) (spaces : List SpaceInfo) (funcArgs : List String)
    (classPattern : List Pat) (startPos : Option Nat) :
    Nat → Option Nat → List String → Nat → Option Nat
  | 0, _, _, _ => none
  | fuel + 1, nestO, classPath, depth =>
    match nestO with
    | none => none
    | some n =>
      match spaces.get? n with
      | none => none
      | some sp =>
        let classPath := sp.className :: "::" :: classPath
        let pattern := classPath.map Pat.lit ++ classPattern
        let depth := depth + 1
        let nest' := sp.nest
        let bound :=
          match nest' with
          | some m => (spaces.get? m).bind (·.classEnd)
          | none => none
        let hit :=
          match startPos with
          | none => none
          | some st => csdbOolInner toks pattern funcArgs classPath depth bound
              (toks.length + 1) st
        match hit with
        | some fn => some fn
        | none => csdbOolOuter toks spaces funcArgs classPattern startPos fuel
            nest' classPath depth

/-- The `numConstructors` increment (checkclass.cpp:201-203): one when the
method is classified `Constructor` or `CopyConstructor`, else zero. -/
def ctorInc (t : FuncType) : Nat :=
  if t = .Constructor ∨ t = .CopyConstructor then 1 else 0

/-- One full run of the method-declaration block (checkclass.cpp:132-289)
for the token at `i` inside class `idx`; returns the updated state and the
position at which the top-level scan resumes (`none` stops the scan, as
the C++ does only by walking off the stream). -/
def csdbMethod (toks : Toks) (st : CsdbState)
    (idx : Nat) (sp : SpaceInfo) (i : Nat) (linkPos : Nat) :
    CsdbState × Option Nat :=
  let s := strAt toks i
  -- operator function
  let isOperator := s = "operator"
  let tokenDef := if isOperator then i + 1 else i
  let fType : FuncType :=
    if isOperator then
      (if strAt toks (i + 1) = "=" then .OperatorEqual else .Function)
    -- class constructor/destructor
    else if s = sp.className then
      (if strAt toks (i - 1) = "~" then .Destructor
       else if matchAt toks i [.name, .lit "(", .lit "const", .name, .lit "&"]
           ∧ (strAt toks (i + 5) = ")"
              ∨ (isNameTok (strAt toks (i + 5)) ∧ strAt toks (i + 6) = ")"))
           ∧ strAt toks (i + 3) = sp.className then .CopyConstructor
       else .Constructor)
    else .Function
  let flags := csdbFlagScan toks i
  -- const function
  let isConst := strAt toks (linkPos + 1) = "const"
  -- count the number of constructors
  let spaces1 := updateSpace st.spaces idx fun sp =>
    { sp with numConstructors := sp.numConstructors + ctorInc fType }
  let function : Func :=
    { Func.default with
      access := sp.access, tokenDef := tokenDef, token := tokenDef
      , isOperator := isOperator, isVirtual := flags.1, isStatic := flags.2.1
      , isFriend := flags.2.2, isConst := isConst, type := fType }
  -- out of line function:  ") const| ;"  or  ") const| = 0 ;"
  if matchRParenSuffix toks linkPos [";"]
      ∨ (strAt toks linkPos = ")"
         ∧ ((strAt toks (linkPos + 1) = "="
             ∧ strAt toks (linkPos + 2) = "0" ∧ strAt toks (linkPos + 3) = ";")
            ∨ (strAt toks (linkPos + 1) = "const" ∧ strAt toks (linkPos + 2) = "="
               ∧ strAt toks (linkPos + 3) = "0" ∧ strAt toks (linkPos + 4) = ";"))) then
    let classPattern : List Pat :=
      if isOperator then [.lit "operator", .lit (strAt toks tokenDef), .lit "("]
      else [.lit (strAt toks tokenDef), .lit "("]
    let funcArgs := toks.drop (tokenDef + 2)
    let hit := csdbOolOuter toks spaces1 funcArgs classPattern sp.classEnd
      (spaces1.length + 1) (some idx) [] 0
    let function :=
      match hit with
      | some fn => { function with token := fn, hasBody := true }
      | none => function
    let spaces2 := updateSpace spaces1 idx fun sp =>
      { sp with functionList := sp.functionList ++ [function] }
    ({ st with spaces := spaces2 }, some (linkPos + 2))
  -- inline function
  else
    let function := { function with isInline := true, hasBody := true }
    let spaces2 := updateSpace spaces1 idx fun sp =>
      { sp with functionList := sp.functionList ++ [function] }
    let st' := { st with spaces := spaces2 }
    -- skip over function body
    match findPat toks [.lit "\x7b"] (linkPos + 1) none with
    | none => (st', none)
    | some b =>
      match link toks b with
      | none => (st', none)
      | some e => (st', some (e + 1))

/-- The top-level scan of `createSymbolDatabase` (checkclass.cpp:58-292). -/
def csdbLoop (stdType : String → Bool) (toks : Toks) :
    Nat → Nat → CsdbState → CsdbState
  | 0, _, st => st
  | fuel + 1, i, st =>
    if i ≥ toks.length then st
    else
      let s := strAt toks i
      -- Locate next class:  class|struct|namespace %var% [{:]
      if (s = "class" ∨ s = "struct" ∨ s = "namespace")
          ∧ isNameTok (strAt toks (i + 1))
          ∧ (strAt toks (i + 2) = "\x7b" ∨ strAt toks (i + 2) = ":") then
        match csdbBaseScan toks (toks.length + 1) (i + 2) [] with
        | none => st
        | some (bracePos, derived) =>
          let newInfo : SpaceInfo :=
            { isNamespace := s = "namespace"
            , className := strAt toks (i + 1)
            , classDef := i
            , classStart := bracePos
            , classEnd := link toks bracePos
            , numConstructors := 0
            , functionList := []
            , varlist := getVarList stdType toks i
            , derivedFrom := derived
            , nest := st.infoIdx
            , access := if s = "struct" then .Public else .Private }
          let idx := st.spaces.length
          csdbLoop stdType toks fuel (bracePos + 1)
            { spaces := st.spaces ++ [newInfo]
            , mmap := mmapInsert st.mmap newInfo.className idx
            , infoIdx := some idx }
      else
        -- check if in class
        match st.infoIdx with
        | some idx =>
          match st.spaces.get? idx with
          | some sp =>
            if sp.isNamespace then csdbLoop stdType toks fuel (i + 1) st
            -- check for end of class
            else if some i = sp.classEnd then
              csdbLoop stdType toks fuel (i + 1) { st with infoIdx := sp.nest }
            -- What section are we in..
            else if s = "private:" then
              let spaces' := updateSpace st.spaces idx
                (fun sp => { sp with access := .Private })
              csdbLoop stdType toks fuel (i + 1) { st with spaces := spaces' }
            else if s = "protected:" then
              let spaces' := updateSpace st.spaces idx
                (fun sp => { sp with access := .Protected })
              csdbLoop stdType toks fuel (i + 1) { st with spaces := spaces' }
            else if s = "public:" then
              let spaces' := updateSpace st.spaces idx
                (fun sp => { sp with access := .Public })
              csdbLoop stdType toks fuel (i + 1) { st with spaces := spaces' }
            -- function?
            else
              let lk := link toks (if s = "operator" then i + 2 else i + 1)
              if ((isNameTok s ∧ strAt toks (i + 1) = "(")
                    ∨ (s = "operator" ∧ strAt toks (i + 1) ≠ ""
                       ∧ strAt toks (i + 2) = "("))
                  ∧ strAt toks (i - 1) ≠ "::"
                  ∧ lk.any (fun l => matchRParenSuffix toks l [";", "\x7b", "=", ":"]) then
                match lk with
                | some l =>
                  match csdbMethod toks st idx sp i l with
                  | (st', some resume) => csdbLoop stdType toks fuel resume st'
                  | (st', none) => st'
                | none => csdbLoop stdType toks fuel (i + 1) st
              else csdbLoop stdType toks fuel (i + 1) st
          | none => csdbLoop stdType toks fuel (i + 1) st
        | none => csdbLoop stdType toks fuel (i + 1) st

/-- The symbol database built from the whole token stream. -/
def buildSymbolDatabase (stdType : String → Bool) (toks : Toks) : CsdbState :=
  csdbLoop stdType toks (toks.length + 1) 0 ⟨[], [], none⟩

/-- The `hasSymbolDatabase` guard of the `CheckClass` object
(checkclass.h:129, checkclass.cpp:50-56). -/
structure CheckClassState where
  hasSymbolDatabase : Bool
  db : CsdbState
deriving DecidableEq, Repr

/-- `CheckClass::createSymbolDatabase()`: bail out when the flag is set,
otherwise set it and build. -/
def createSymbolDatabase (stdType : String → Bool) (toks : Toks)
    (st : CheckClassState) : CheckClassState :=
  if st.hasSymbolDatabase then st
  else { hasSymbolDatabase := true, db := buildSymbolDatabase stdType toks }

/-! ## `CheckClass::initVar` and `CheckClass::initializeVarList`
(checkclass.cpp:489-741) -/

/-- `CheckClass::initVar`: set the `init` flag of the first record with the
given name (checkclass.cpp:489-499). -/
def initVar : List Var → String → List Var
  | [], _ => []
  | v :: vs, varname =>
    if v.name = varname then { v with init := true } :: vs
    else v :: initVar vs varname

/-- The conservative bail-out: mark every member initialized
(`for (Var *var = varlist; var; var = var->next) var->init = true`). -/
def setAllInit (varlist : List Var) : List Var :=
  varlist.map fun v => { v with init := true }

/-- `Tokenizer::findClassFunction` — the external collaborator that
resolves a member-function name to its implementation token (spec §6);
the dataflow is proved for every such resolver, so no behaviour is
assumed of it.  Arguments: class-declaration token, class name, function
name, `isStruct`. -/
abbrev FindClassFunction := Nat → String → String → Bool → Option Nat

/-- The sibling-declaration scan of the unknown-callee branch
(checkclass.cpp:654-674): walk the class body, skipping `{...}` blocks;
result `true` means the walk ended with a null token (the callee is a
member or a `friend` appeared, or the stream ran out) — the caller then
bails out. -/
def ivlSibScan (toks : Toks) (fname : String) : Nat → Nat → Bool
  | 0, _ => true
  | fuel + 1, p =>
    if p ≥ toks.length then true
    else if strAt toks p = "\x7b" then
      match link toks p with
      | none => true
      | some l => ivlSibScan toks fname fuel (l + 1)
    else if strAt toks p = "\x7d" then false
    else if strAt toks p = fname ∨ strAt toks p = "friend" then
      if strAt toks (p + 1) = "(" ∨ strAt toks p = "friend" then true
      else ivlSibScan toks fname fuel (p + 1)
    else ivlSibScan toks fname fuel (p + 1)

/-- Walk from the found class declaration to its `{`, noting whether a `:`
(base-class list) occurred (checkclass.cpp:646-652); `none` when the
stream ends first. -/
def ivlDerivedScan (toks : Toks) : Nat → Nat → Bool → Option (Nat × Bool)
  | 0, _, _ => none
  | fuel + 1, p, derived =>
    if p ≥ toks.length then none
    else if strAt toks p = "\x7b" then some (p, derived)
    else ivlDerivedScan toks fuel (p + 1) (derived ∨ strAt toks p = ":")

/-- Mark every identifier passed to a known-external callee
(checkclass.cpp:685-700). -/
def ivlArgScan (toks : Toks) : Nat → Nat → Nat → List Var → List Var
  | 0, _, _, varlist => varlist
  | fuel + 1, p, level, varlist =>
    if p ≥ toks.length then varlist
    else
      let s := strAt toks p
      if s = "(" then ivlArgScan toks fuel (p + 1) (level + 1) varlist
      else if s = ")" then
        if level = 0 then varlist
        else ivlArgScan toks fuel (p + 1) (level - 1) varlist
      else
        ivlArgScan toks fuel (p + 1) level
          (if isNameTok s then initVar varlist s else varlist)

/-- The initializer-list handling at brace depth 0
(checkclass.cpp:514-526): `: var(value)` marks `var`, an inner
`var2 = ...` marks `var2`. -/
def ivlInitList (toks : Toks) (i indent : Nat) (assign : Bool)
    (varlist : List Var) : List Var :=
  if indent = 0 ∧ assign ∧ matchAt toks i [.name, .lit "("] then
    let vl := initVar varlist (strAt toks i)
    if matchAt toks (i + 2) [.name, .lit "="] then initVar vl (strAt toks (i + 2))
    else vl
  else varlist

/-- `>> var` marks `var` (checkclass.cpp:548-552). -/
def ivlStream (toks : Toks) (i : Nat) (varlist : List Var) : List Var :=
  if matchAt toks i [.lit ">>", .name] then initVar varlist (strAt toks (i + 1))
  else varlist

/-- The assignment ladder (checkclass.cpp:705-733): plain, indexed,
doubly-indexed, dereferencing and field assignments each mark the
assigned member. -/
def ivlAssignMarks (toks : Toks) (cur : Nat) (varlist : List Var) : List Var :=
  if matchAt toks cur [.name, .lit "="] then initVar varlist (strAt toks cur)
  else if matchAt toks cur [.name, .lit "[", .anyTok, .lit "]", .lit "="] then
    initVar varlist (strAt toks cur)
  else if matchAt toks cur [.name, .lit "[", .anyTok, .lit "]", .lit "[",
      .anyTok, .lit "]", .lit "="] then
    initVar varlist (strAt toks cur)
  else if matchAt toks cur [.lit "*", .name, .lit "="] then
    initVar varlist (strAt toks (cur + 1))
  else if matchAt toks cur [.name, .lit ".", .anyTok, .lit "="] then
    initVar varlist (strAt toks cur)
  else varlist

/-- `var . clear (` / `var . Clear (` mark `var`
(checkclass.cpp:735-739). -/
def ivlClearMark (toks : Toks) (cur : Nat) (varlist : List Var) : List Var :=
  if matchAt toks cur [.name, .lit ".", .oneOf ["clear", "Clear"], .lit "("] then
    initVar varlist (strAt toks cur)
  else varlist

/-- `if (simpleMatch(ftok, "( !")) ftok = ftok->next()`
(checkclass.cpp:558-559). -/
def ivlGateTok (toks : Toks) (i : Nat) : Nat :=
  if strAt toks i = "(" ∧ strAt toks (i + 1) = "!" then i + 1 else i

/-- `if (Match(ftok->next(), "%var% . %var% (")) ftok = ftok->tokAt(2)`
(checkclass.cpp:569-570). -/
def ivlDotCallTok (toks : Toks) (cur : Nat) : Nat :=
  if matchAt toks (cur + 1) [.name, .lit ".", .name, .lit "("] then cur + 2 else cur

/-- The statement-head shapes admitted at checkclass.cpp:572-576. -/
def ivlHeadOk (toks : Toks) (cur : Nat) : Bool :=
  isNameTok (strAt toks (cur + 1))
  ∨ (strAt toks (cur + 1) = "this" ∧ strAt toks (cur + 2) = "."
     ∧ isNameTok (strAt toks (cur + 3)))
  ∨ (strAt toks (cur + 1) = "*" ∧ isNameTok (strAt toks (cur + 2))
     ∧ strAt toks (cur + 3) = "=")
  ∨ (strAt toks (cur + 1) = "(" ∧ strAt toks (cur + 2) = "*"
     ∧ strAt toks (cur + 3) = "this" ∧ strAt toks (cur + 4) = ")"
     ∧ strAt toks (cur + 5) = "." ∧ isNameTok (strAt toks (cur + 6)))

/-- Step onto the first statement token and skip the `( * this ) .`,
`this .` and `X ::` prefixes (checkclass.cpp:578-593). -/
def ivlStmtStart (toks : Toks) (cur : Nat) : Nat :=
  let c := cur + 1
  let c :=
    if strAt toks c = "(" ∧ strAt toks (c + 1) = "*" ∧ strAt toks (c + 2) = "this"
        ∧ strAt toks (c + 3) = ")" ∧ strAt toks (c + 4) = "." then c + 5
    else c
  let c := if strAt toks c = "this" ∧ strAt toks (c + 1) = "." then c + 2 else c
  if isNameTok (strAt toks c) ∧ strAt toks (c + 1) = "::" then c + 2 else c

/-- Is a literal `this` among the call's argument tokens
(checkclass.cpp:614-623)? -/
def ivlPassesThis (toks : Toks) (cur : Nat) : Bool :=
  match link toks (cur + 1) with
  | some l => (segment toks (cur + 1) (l + 1)).contains "this"
  | none => false

/-- The unknown-callee analysis (checkclass.cpp:642-681): find the class
declaration, note a base-class list, scan the class body for a sibling
declaration of the callee or a `friend`; `true` means the dataflow bails
out and assumes every member initialized. -/
def ivlUnknownBails (toks : Toks) (tok1 : Nat) (classname fname : String) : Bool :=
  let declO := findPat toks [.lit (strAt toks tok1), .lit classname, .oneOf ["\x7b", ":"]]
    0 none
  match declO.bind (fun d => ivlDerivedScan toks (toks.length + 1) d false) with
  | none => true
  | some (brace, derived) =>
    ivlSibScan toks fname (toks.length + 1) (brace + 1) || derived

/-- `CheckClass::initializeVarList(tok1, ftok, varlist, callstack)`
(checkclass.cpp:502-741), as the loop over `(position, indentlevel,
Assign)`; the recursive descent into a resolved member function burns the
same fuel. -/
def initializeVarList (toks : Toks) (oracle : FindClassFunction) (tok1 : Nat) :
    Nat → Nat → Nat → Bool → List Var → List String → List Var
  | 0, _, _, _, varlist, _ => varlist
  | fuel + 1, i, indent, assign, varlist, callstack =>
    -- if (!ftok->next()) break
    if i + 1 ≥ toks.length then varlist
    else
      -- class constructor initializing variables:  clKalle::clKalle() : var(value) { }
      let varlist := ivlInitList toks i indent assign varlist
      let assign := if indent = 0 then (assign ∨ strAt toks i = ":") else assign
      let indent1 := if strAt toks i = "\x7b" then indent + 1 else indent
      let assign := if strAt toks i = "\x7b" then false else assign
      if strAt toks i = "\x7d" ∧ indent1 ≤ 1 then varlist
      else
        let indent := if strAt toks i = "\x7d" then indent1 - 1 else indent1
        if indent < 1 then
          initializeVarList toks oracle tok1 fuel (i + 1) indent assign varlist callstack
        else
          -- Variable getting value from stream?
          let varlist := ivlStream toks i varlist
          -- Before a new statement there is "[{};()=]"
          if ¬(strAt toks i = "\x7b" ∨ strAt toks i = "\x7d" ∨ strAt toks i = ";"
              ∨ strAt toks i = "(" ∨ strAt toks i = ")" ∨ strAt toks i = "=") then
            initializeVarList toks oracle tok1 fuel (i + 1) indent assign varlist callstack
          else
            -- Using the operator= function to initialize all variables..
            if strAt toks (ivlGateTok toks i + 1) = "*"
                ∧ strAt toks (ivlGateTok toks i + 2) = "this"
                ∧ strAt toks (ivlGateTok toks i + 3) = "=" then
              setAllInit varlist
            else
              let cur1 := ivlDotCallTok toks (ivlGateTok toks i)
              if ¬ivlHeadOk toks cur1 then
                initializeVarList toks oracle tok1 fuel (cur1 + 1) indent assign varlist
                  callstack
              else
                -- Goto the first token in this statement (with prefix skips)
                let cur := ivlStmtStart toks cur1
                -- Clearing all variables..
                if strAt toks cur = "memset" ∧ strAt toks (cur + 1) = "("
                    ∧ strAt toks (cur + 2) = "this" ∧ strAt toks (cur + 3) = "," then
                  setAllInit varlist
                -- Clearing array..
                else if strAt toks cur = "memset" ∧ strAt toks (cur + 1) = "("
                    ∧ isNameTok (strAt toks (cur + 2)) ∧ strAt toks (cur + 3) = "," then
                  match link toks (cur + 1) with
                  | some l =>
                    initializeVarList toks oracle tok1 fuel (l + 1) indent assign
                      (initVar varlist (strAt toks (cur + 2))) callstack
                  | none => initVar varlist (strAt toks (cur + 2))
                -- Calling member function?
                else if matchAt toks cur [.name, .lit "("] ∧ strAt toks cur ≠ "if" then
                  -- Passing "this" => assume that everything is initialized
                  if ivlPassesThis toks cur then setAllInit varlist
                  -- recursive call / calling overloaded function
                  else if callstack.contains (strAt toks cur) then setAllInit varlist
                  else
                    match oracle tok1 (strAt toks (tok1 + 1)) (strAt toks cur)
                        (strAt toks tok1 = "struct") with
                    | some ftok2 =>
                      -- descend, then fall through to the clear|Clear check
                      initializeVarList toks oracle tok1 fuel (cur + 1) indent assign
                        (ivlClearMark toks cur
                          (initializeVarList toks oracle tok1 fuel ftok2 0 false varlist
                            (callstack ++ [strAt toks cur])))
                        callstack
                    | none =>
                      -- bail out, or assume the external call's arguments initialized
                      if ivlUnknownBails toks tok1 (strAt toks (tok1 + 1))
                          (strAt toks cur) then
                        setAllInit varlist
                      else
                        initializeVarList toks oracle tok1 fuel (cur + 1) indent assign
                          (ivlArgScan toks (toks.length + 1) (cur + 2) 0 varlist) callstack
                else
                  -- Assignments and the clear helpers
                  initializeVarList toks oracle tok1 fuel (cur + 1) indent assign
                    (ivlClearMark toks cur (ivlAssignMarks toks cur varlist)) callstack

/-! ## `CheckClass::constructors` (checkclass.cpp:832-910) -/

/-- Fuel covering the dataflow walk including nested member-function
descents. -/
def ivlFuel (toks : Toks) : Nat :=
  toks.length * toks.length + 1

/-- The no-constructor report for one class (checkclass.cpp:845-857):
`numConstructors == 0` and some private, non-class, non-static member. -/
def noConstructorPart (toks : Toks) (info : SpaceInfo) : List Diag :=
  if info.numConstructors = 0 then
    match info.varlist.find? (fun var => var.priv && !var.isClass && !var.isStatic) with
    | some _ =>
      [.noConstructor info.classDef info.className (strAt toks info.classDef = "struct")]
    | none => []
  else []

/-- Position of the `(` whose span the `operatorEqVarError` scan covers
(checkclass.cpp:886-890). -/
def operStartOf (toks : Toks) (token : Nat) : Nat :=
  if strAt toks token = "=" then token + 1 else token + 3

/-- The per-member report decision after the dataflow
(checkclass.cpp:874-907). -/
def ctorCheckVar (toks : Toks) (info : SpaceInfo) (it : Func) (var : Var) : List Diag :=
  -- skip classes for regular constructor
  if var.isClass ∧ it.type = .Constructor then []
  else if var.init ∨ var.isStatic then []
  -- It is non-static and it is not initialized => error
  else if it.type = .OperatorEqual then
    let operStart := operStartOf toks it.token
    let stop := (link toks operStart).getD toks.length
    let classNameUsed := (segment toks operStart stop).contains info.className
    if classNameUsed then [.operatorEqVar it.token info.className var.name] else []
  else if it.access ≠ .Private ∧ ¬var.isStatic then
    [.uninitVar it.token info.className var.name]
  else []

/-- One constructor-like method: clear the `init` flags, run the dataflow,
report the members still uninitialized (checkclass.cpp:861-908). -/
def ctorCheckFunc (toks : Toks) (oracle : FindClassFunction) (info : SpaceInfo)
    (it : Func) : List Diag :=
  if ¬it.hasBody
      ∨ ¬(it.type = .Constructor ∨ it.type = .CopyConstructor
          ∨ it.type = .OperatorEqual) then []
  else
    -- Mark all variables not used
    let varlist := info.varlist.map fun v => { v with init := false }
    let varlist := initializeVarList toks oracle info.classDef (ivlFuel toks) it.token 0
      false varlist []
    varlist.flatMap (ctorCheckVar toks info it)

/-- `CheckClass::constructors()`: iterate the multimap, emit the
no-constructor report and the per-method uninitialized-member reports. -/
def constructorsCheck (stdType : String → Bool) (oracle : FindClassFunction)
    (settings : Settings) (toks : Toks) : List Diag :=
  if ¬settings.checkCodingStyle then []
  else
    let db := buildSymbolDatabase stdType toks
    db.mmap.flatMap fun kv =>
      match db.spaces.get? kv.2 with
      | none => []
      | some info =>
        noConstructorPart toks info
          ++ info.functionList.flatMap (ctorCheckFunc toks oracle info)

/-! ## `CheckClass::operatorEqRetRefThis` (checkclass.cpp:1209-1258) -/

/-- The return-signature test (checkclass.cpp:1228-1229):
`;|}|{|public:|protected:|private: %type% &` just before the declaration
name, with the `%type%` equal to the class name. -/
def oerrtRetSig (toks : Toks) (className : String) (tokenDef : Nat) : Bool :=
  tokenDef ≥ 4
    ∧ matchAt toks (tokenDef - 4)
        [.oneOf [";", "\x7d", "\x7b", "public:", "protected:", "private:"], .name, .lit "&"]
    ∧ strAt toks (tokenDef - 3) = className

/-- The accepted shapes after `return` (checkclass.cpp:1246-1248):
`(| * this ;|=`, `(| * this +=`, or `operator = (`. -/
def oerrtShapeOk (toks : Toks) (q : Nat) : Bool :=
  (strAt toks q = "*" ∧ strAt toks (q + 1) = "this"
    ∧ (strAt toks (q + 2) = ";" ∨ strAt toks (q + 2) = "="
       ∨ strAt toks (q + 2) = "+="))
  ∨ (strAt toks q = "(" ∧ strAt toks (q + 1) = "*" ∧ strAt toks (q + 2) = "this"
     ∧ (strAt toks (q + 3) = ";" ∨ strAt toks (q + 3) = "="
        ∨ strAt toks (q + 3) = "+="))
  ∨ (strAt toks q = "operator" ∧ strAt toks (q + 1) = "=" ∧ strAt toks (q + 2) = "(")

/-- The body walk of `operatorEqRetRefThis` (checkclass.cpp:1234-1253):
each ill-shaped `return` reports, and so does a body without any
`return`. -/
def oerrtWalk (toks : Toks) (className : String) (errTok : Nat) :
    Nat → Nat → Nat → Bool → List Diag
  | 0, _, _, _ => []
  | fuel + 1, p, last, foundReturn =>
    if p = last ∨ p ≥ toks.length then
      if ¬foundReturn then [.operatorEqRetRefThis errTok] else []
    else if strAt toks p = "return" then
      -- optional "( ClassName & )" cast after the return
      let p' :=
        if strAt toks (p + 1) = "(" ∧ strAt toks (p + 2) = className
            ∧ strAt toks (p + 3) = "&" ∧ strAt toks (p + 4) = ")" then p + 4
        else p
      (if ¬oerrtShapeOk toks (p' + 1) then [.operatorEqRetRefThis errTok] else [])
        ++ oerrtWalk toks className errTok fuel (p' + 1) last true
    else oerrtWalk toks className errTok fuel (p + 1) last foundReturn

/-- `operatorEqRetRefThis` for a single method record
(checkclass.cpp:1225-1254). -/
def operatorEqRetRefThisFunc (toks : Toks) (info : SpaceInfo) (it : Func) : List Diag :=
  if it.type = .OperatorEqual ∧ it.hasBody then
    -- make sure the return signature is correct
    if oerrtRetSig toks info.className it.tokenDef then
      match link toks (it.token + 1) with
      | none => []
      | some rp =>
        let last := (link toks (rp + 1)).getD toks.length
        oerrtWalk toks info.className it.token (toks.length + 1) (rp + 2) last false
    else []
  else []

/-- `CheckClass::operatorEqRetRefThis()`. -/
def operatorEqRetRefThisCheck (stdType : String → Bool) (settings : Settings)
    (toks : Toks) : List Diag :=
  if ¬settings.checkCodingStyle then []
  else
    let db := buildSymbolDatabase stdType toks
    db.mmap.flatMap fun kv =>
      match db.spaces.get? kv.2 with
      | none => []
      | some info => info.functionList.flatMap (operatorEqRetRefThisFunc toks info)

/-! ## `CheckClass::virtualDestructor` (checkclass.cpp:1578-1718) -/

/-- The backward access scan from a base-class destructor
(checkclass.cpp:1686-1715): `public:` means the report fires, a
`protected:`/`private:` label or the unmatched class opener suppresses
it. -/
def vdPublicWalk (toks : Toks) : Nat → Int → Bool
  | 0, _ =>
    -- the first stream token: any outcome other than a label ends the
    -- walk at a null previous()
    strAt toks 0 = "public:"
  | i + 1, indent =>
    let s := strAt toks (i + 1)
    if s = "public:" then true
    else if s = "protected:" ∨ s = "private:" then false
    else if s = "\x7b" ∧ indent + 1 ≥ 1 then false
    else
      vdPublicWalk toks i
        (if s = "\x7b" then indent + 1 else if s = "\x7d" then indent - 1 else indent)

/-- Net brace count the backward access scan accumulates over positions
`lo + 1 .. i` (the `indent` bookkeeping of checkclass.cpp:1698-1712): an
opening brace counts `+1`, a closing brace `-1`. -/
def vdDelta (toks : Toks) (lo : Nat) : Nat → Int
  | 0 => 0
  | i + 1 =>
    if i + 1 ≤ lo then 0
    else (if strAt toks (i + 1) = "\x7b" then 1
      else if strAt toks (i + 1) = "\x7d" then (-1 : Int) else 0) + vdDelta toks lo i

/-- Locate the base-class destructor declaration
(checkclass.cpp:1649-1651): `%any% ~ Base (`, skipping `::`-qualified
hits. -/
def vdFindDtor (toks : Toks) (baseName : String) : Nat → Nat → Option Nat
  | 0, _ => none
  | fuel + 1, from_ =>
    match findPat toks [.anyTok, .lit "~", .lit baseName, .lit "("] from_ none with
    | none => none
    | some b =>
      if strAt toks b = "::" then vdFindDtor toks baseName fuel (b + 1)
      else some b

/-- The backward walk looking for `virtual` before the destructor
(checkclass.cpp:1653-1655): step back over name tokens; `none` when the
walk falls off the stream start. -/
def vdVirtWalk (toks : Toks) : Nat → Option Nat
  | 0 =>
    if ¬isNameTok (strAt toks 0) ∨ strAt toks 0 = "virtual" then some 0 else none
  | i + 1 =>
    if ¬isNameTok (strAt toks (i + 1)) ∨ strAt toks (i + 1) = "virtual" then some (i + 1)
    else vdVirtWalk toks i

/-- The per-base decision (checkclass.cpp:1648-1715). -/
def vdCheckBase (toks : Toks) (derivedName baseName : String) : List Diag :=
  let baseO := vdFindDtor toks baseName (toks.length + 1) 0
  match baseO, baseO.bind (vdVirtWalk toks) with
  | some b, some v =>
    -- There is a destructor. Check that it is virtual..
    if strAt toks v = "virtual" then []
    -- skip when the base class has base classes of its own (class not found)
    else if (findPat toks [.lit "class", .lit baseName, .lit "\x7b"] 0 none).isNone then []
    -- make sure the destructor is public
    else if vdPublicWalk toks b 0 then [.virtualDestructor v baseName derivedName]
    else []
  | _, _ =>
    -- no destructor: report when the class declaration is available
    match findPat toks [.lit "class", .lit baseName, .lit "\x7b"] 0 none with
    | some cls => [.virtualDestructor cls baseName derivedName]
    | none => []

/-- Step from a base-class name to the next item of the base list
(checkclass.cpp:1629-1642); `none` when the walk falls off the stream. -/
def vdBaseAdvance (toks : Toks) : Nat → Nat → Option Nat
  | 0, _ => none
  | fuel + 1, p =>
    if p ≥ toks.length then none
    else if strAt toks p = "\x7b" then some p
    else if strAt toks p = "," then some (p + 1)
    else vdBaseAdvance toks fuel (p + 1)

/-- The base-class iteration of one derived class
(checkclass.cpp:1617-1716); returns the reports and the position where
the top-level `findmatch` resumes (`none` = the cursor went null). -/
def vdBaseLoop (toks : Toks) (derivedName : String) : Nat → Nat → List Diag × Option Nat
  | 0, p => ([], some p)
  | fuel + 1, d =>
    if d ≥ toks.length then ([], none)
    else if ¬isNameTok (strAt toks d) then ([], some d)
    else
      let isPublic := strAt toks d = "public"
      let d1 :=
        if strAt toks d = "public" ∨ strAt toks d = "protected"
            ∨ strAt toks d = "private" then d + 1
        else d
      let baseName := strAt toks d1
      match vdBaseAdvance toks (toks.length + 1) d1 with
      | none =>
        ((if isPublic then vdCheckBase toks derivedName baseName else []), none)
      | some d' =>
        let diags := if isPublic then vdCheckBase toks derivedName baseName else []
        let (rest, fin) := vdBaseLoop toks derivedName fuel d'
        (diags ++ rest, fin)

/-- The loop over derived-class declarations (checkclass.cpp:1589-1717). -/
def vdLoop (toks : Toks) : Nat → Nat → List Diag
  | 0, _ => []
  | fuel + 1, from_ =>
    match findPat toks [.lit "class", .name, .lit ":", .name] from_ none with
    | none => []
    | some derived =>
      let dname := strAt toks (derived + 1)
      -- Check that the derived class has a non-empty destructor..
      match findPat toks [.lit "~", .lit dname, .lit "(", .lit ")", .lit "\x7b"] 0 none with
      | none => vdLoop toks fuel (derived + 1)
      | some dd =>
        if matchAt toks dd [.lit "~", .name, .lit "(", .lit ")", .lit "\x7b", .lit "\x7d"] then
          vdLoop toks fuel (derived + 1)
        else
          match vdBaseLoop toks dname (toks.length + 1) (derived + 3) with
          | (diags, none) => diags
          | (diags, some p) => diags ++ vdLoop toks fuel p

/-- `CheckClass::virtualDestructor()`: enabled only under
`settings.inconclusive` (checkclass.cpp:1584-1585). -/
def virtualDestructorCheck (settings : Settings) (toks : Toks) : List Diag :=
  if ¬settings.inconclusive then []
  else vdLoop toks (toks.length + 1) 0

/-! ## Concrete artifacts shared by witnesses and counterexamples -/

/-- A concrete `Token::isStandardType` (the external tokenizer marks the
built-in scalar types). -/
def stdTypeEx : String → Bool := fun s =>
  ["bool", "char", "short", "int", "long", "float", "double", "size_t"].contains s

/-- A resolver that never finds a member-function implementation. -/
def noOracle : FindClassFunction := fun _ _ _ _ => none

/-- Style checks on, inconclusive checks on. -/
def styleSettings : Settings := ⟨true, true⟩

/-- `class A { int x ; int y ; } ;` -/
def exToksXY : Toks := ["class", "A", "\x7b", "int", "x", ";", "int", "y", ";", "\x7d", ";"]

/-- `class Z { } ; class A { } ;` — `Z` is declared first. -/
def exToksZA : Toks := ["class", "Z", "\x7b", "\x7d", ";", "class", "A", "\x7b", "\x7d", ";"]

/-- `class A { public: A ( ) { } A ( const A & a ) { } ~ A ( ) { } int x ; } ;` -/
def exToksCtor : Toks :=
  ["class", "A", "\x7b", "public:", "A", "(", ")", "\x7b", "\x7d", "A", "(", "const", "A",
   "&", "a", ")", "\x7b", "\x7d", "~", "A", "(", ")", "\x7b", "\x7d", "int", "x", ";", "\x7d", ";"]

/-- `class A { public: void operator = ( const A & a ) { } int x ; } ;` —
the class name occurs in the parameter list only. -/
def exToksOpEqPar : Toks :=
  ["class", "A", "\x7b", "public:", "void", "operator", "=", "(", "const", "A", "&",
   "a", ")", "\x7b", "\x7d", "int", "x", ";", "\x7d", ";"]

/-- `class A { public: void operator = ( int b ) { A * p ; } int x ; } ;` —
the class name occurs in the body only. -/
def exToksOpEqBody : Toks :=
  ["class", "A", "\x7b", "public:", "void", "operator", "=", "(", "int", "b", ")",
   "\x7b", "A", "*", "p", ";", "\x7d", "int", "x", ";", "\x7d", ";"]

/-- `class A { public: A & operator = ( const A & a ) { } } ;` — an
`operator=` with the right signature and no `return` in its body. -/
def exToksOpEqNoRet : Toks :=
  ["class", "A", "\x7b", "public:", "A", "&", "operator", "=", "(", "const", "A",
   "&", "a", ")", "\x7b", "\x7d", "\x7d", ";"]

/-- Base with public non-virtual destructor, derived with non-empty
destructor (spec scenario S6). -/
def exToksVd : Toks :=
  ["class", "B", "\x7b", "public:", "~", "B", "(", ")", "\x7b", "\x7d", "\x7d", ";",
   "class", "D", ":", "public", "B", "\x7b", "public:", "~", "D", "(", ")", "\x7b",
   "int", "x", "=", "1", ";", "\x7d", "\x7d", ";"]

/-- Base class `B` whose destructor sits in a `protected:` section that
also has an earlier `public:` section and a method body between the label
and the destructor; derived class `D` publicly inherits and has a
non-empty destructor. -/
def exToksVd2 : Toks :=
  ["class", "D", ":", "public", "B", "\x7b", "\x7d", ";",
   "~", "D", "(", ")", "\x7b", "x", ";", "\x7d",
   "class", "B", "\x7b", "public:", "f", "(", ")", ";",
   "protected:", "g", "(", ")", "\x7b", "\x7d",
   "~", "B", "(", ")", "\x7b", "\x7d", "\x7d", ";"]

/-- A placeholder scope record for total list access in closed witness
statements. -/
def dummySpace : SpaceInfo :=
  { isNamespace := false, className := "", classDef := 0, classStart := 0
    , classEnd := none, numConstructors := 0, functionList := []
    , varlist := [], derivedFrom := [], nest := none, access := .Public }

/-- A placeholder member record. -/
def dummyVar : Var := ⟨"", false, false, false, false, false⟩

/-! # Claim C1 -/

/-- The appending driver peels its accumulator off the front. -/
theorem gvlLoopOrd_append (stdType : String → Bool) (toks : Toks) :
    ∀ fuel i indent priv acc,
      gvlLoopOrd stdType toks fuel i indent priv acc
        = acc ++ gvlLoopOrd stdType toks fuel i indent priv [] := by
  intro fuel
  induction fuel with
  | zero => intro i indent priv acc; simp [gvlLoopOrd]
  | succ fuel ih =>
    intro i indent priv acc
    simp only [gvlLoopOrd]
    cases gvlStep stdType toks i indent priv with
    | stop => simp
    | next i' ind' priv' var? =>
      cases var? with
      | none => exact ih i' ind' priv' acc
      | some v =>
        dsimp only
        rw [ih i' ind' priv' (acc ++ [v]), ih i' ind' priv' ([] ++ [v])]
        simp

/-- The prepending production loop is the reverse of the appending one. -/
theorem gvlLoop_reverse (stdType : String → Bool) (toks : Toks) :
    ∀ fuel i indent priv acc,
      gvlLoop stdType toks fuel i indent priv acc
        = (gvlLoopOrd stdType toks fuel i indent priv []).reverse ++ acc := by
  intro fuel
  induction fuel with
  | zero => intro i indent priv acc; simp [gvlLoop, gvlLoopOrd]
  | succ fuel ih =>
    intro i indent priv acc
    simp only [gvlLoop, gvlLoopOrd]
    cases gvlStep stdType toks i indent priv with
    | stop => simp
    | next i' ind' priv' var? =>
      cases var? with
      | none => exact ih i' ind' priv' acc
      | some v =>
        dsimp only
        rw [ih i' ind' priv' (v :: acc), gvlLoopOrd_append stdType toks fuel i' ind' priv'
          ([] ++ [v])]
        simp

/-- C1 (amended): `getVarList` returns the member-variable list in
*reverse* source declaration order — the first `Var` in the returned list
is the *last* member declared in the class body, and of any two members
the one declared later precedes the one declared earlier; reversing the
returned list recovers declaration order. -/
theorem getVarList_eq_reverse_declOrder (stdType : String → Bool) (toks : Toks)
    (tok1 : Nat) :
    getVarList stdType toks tok1 = (getVarListDeclOrder stdType toks tok1).reverse := by
  unfold getVarList getVarListDeclOrder
  rw [gvlLoop_reverse]
  simp

/-- C1 (counterexample): on `class A { int x ; int y ; } ;` the scan meets
`x` then `y`, but the returned list is `[y, x]`: its first element is not
the first member declared. -/
theorem getVarList_order_counterexample :
    (getVarListDeclOrder stdTypeEx exToksXY 0).map Var.name = ["x", "y"]
    ∧ (getVarList stdTypeEx exToksXY 0).map Var.name = ["y", "x"]
    ∧ ((getVarList stdTypeEx exToksXY 0).headD dummyVar).name
        ≠ ((getVarListDeclOrder stdTypeEx exToksXY 0).headD dummyVar).name := by
  decide

/-! # Claim C2 -/

/-- C2 (amended): for an `OperatorEqual` method and a member left
uninitialized (and non-static) by the dataflow, `operatorEqVarError` is
emitted exactly when the class name appears among the tokens from the `(`
after the implementation name token up to its matching `)` — the
*parameter list* of the `operator=`, not its body. -/
theorem ctorCheckVar_opEq_paramlist (toks : Toks) (info : SpaceInfo) (it : Func)
    (var : Var) (hty : it.type = .OperatorEqual) (hinit : var.init = false)
    (hstat : var.isStatic = false) :
    ctorCheckVar toks info it var
      = (if info.className ∈ segment toks (operStartOf toks it.token)
             ((link toks (operStartOf toks it.token)).getD toks.length)
         then [.operatorEqVar it.token info.className var.name] else []) := by
  unfold ctorCheckVar
  rw [if_neg (by simp [hty]), if_neg (by simp [hinit, hstat]), if_pos hty]
  by_cases h : info.className ∈ segment toks (operStartOf toks it.token)
      ((link toks (operStartOf toks it.token)).getD toks.length)
  · rw [if_pos h, if_pos]
    simpa using h
  · rw [if_neg h, if_neg]
    simpa using h

/-- C2 (witness): the amended rule applied to
`class A { public: void operator = ( const A & a ) { } int x ; } ;`. -/
theorem ctorCheckVar_opEq_paramlist_witness :
    ctorCheckVar exToksOpEqPar { dummySpace with className := "A" }
        { Func.default with type := .OperatorEqual, token := 6, hasBody := true }
        ⟨"x", false, false, false, false, false⟩
      = (if "A" ∈ segment exToksOpEqPar (operStartOf exToksOpEqPar 6)
             ((link exToksOpEqPar (operStartOf exToksOpEqPar 6)).getD
               exToksOpEqPar.length)
         then [.operatorEqVar 6 "A" "x"] else []) :=
  ctorCheckVar_opEq_paramlist exToksOpEqPar { dummySpace with className := "A" }
    { Func.default with type := .OperatorEqual, token := 6, hasBody := true }
    ⟨"x", false, false, false, false, false⟩ rfl rfl rfl

/-- C2 (counterexample): in
`class A { public: void operator = ( int b ) { A * p ; } int x ; } ;` the
class name `A` appears lexically inside the body of `operator=`, the
method is `OperatorEqual` with a body, and the member `x` is left
uninitialized and non-static — yet the constructors check emits nothing;
conversely, for
`class A { public: void operator = ( const A & a ) { } int x ; } ;` the
body is empty (no `A` inside it), yet `operatorEqVarError` *is* emitted
(the scan looks at the parameter list instead). -/
theorem constructors_opEqVar_counterexample :
    -- the database for the body-mention stream: one OperatorEqual with a body
    ((buildSymbolDatabase stdTypeEx exToksOpEqBody).spaces.map
        (fun sp => sp.functionList.map (fun f => (f.type, f.hasBody, f.token))))
      = [[(.OperatorEqual, true, 6)]]
    -- its member list is exactly the non-static `x`, and the dataflow leaves
    -- `x` uninitialized
    ∧ ((buildSymbolDatabase stdTypeEx exToksOpEqBody).spaces.map SpaceInfo.varlist)
      = [[⟨"x", false, false, false, false, false⟩]]
    ∧ initializeVarList exToksOpEqBody noOracle 0 (ivlFuel exToksOpEqBody) 6 0 false
        [⟨"x", false, false, false, false, false⟩] []
      = [⟨"x", false, false, false, false, false⟩]
    -- the body of that operator= spans tokens 12..15 and mentions `A`
    ∧ strAt exToksOpEqBody 11 = "\x7b" ∧ link exToksOpEqBody 11 = some 16
    ∧ "A" ∈ segment exToksOpEqBody 12 16
    -- yet nothing is emitted
    ∧ constructorsCheck stdTypeEx noOracle styleSettings exToksOpEqBody = []
    -- while for the parameter-list stream the body is empty ...
    ∧ strAt exToksOpEqPar 13 = "\x7b" ∧ link exToksOpEqPar 13 = some 14
    ∧ segment exToksOpEqPar 14 14 = []
    -- ... and the report fires anyway
    ∧ constructorsCheck stdTypeEx noOracle styleSettings exToksOpEqPar
      = [.operatorEqVar 6 "A" "x"] := by
  decide

/-! # Claim C3 -/

/-- `updateSpace` never changes the arena size. -/
theorem updateSpace_length (l : List SpaceInfo) (i : Nat) (f : SpaceInfo → SpaceInfo) :
    (updateSpace l i f).length = l.length := by
  induction l generalizing i with
  | nil => rfl
  | cons a l ih => cases i <;> simp [updateSpace, ih]

/-- Elements of an updated arena come from the old arena, possibly through
the update function. -/
theorem mem_updateSpace {l : List SpaceInfo} {i : Nat} {f : SpaceInfo → SpaceInfo}
    {x : SpaceInfo} (hx : x ∈ updateSpace l i f) : x ∈ l ∨ ∃ y ∈ l, x = f y := by
  induction l generalizing i with
  | nil => simp [updateSpace] at hx
  | cons a l ih =>
    cases i with
    | zero =>
      rcases (by simpa [updateSpace] using hx : x = f a ∨ x ∈ l) with h | h
      · exact Or.inr ⟨a, by simp, h⟩
      · exact Or.inl (by simp [h])
    | succ n =>
      rcases (by simpa [updateSpace] using hx : x = a ∨ x ∈ updateSpace l n f) with h | h
      · exact Or.inl (by simp [h])
      · rcases ih h with h' | ⟨y, hy, hxy⟩
        · exact Or.inl (by simp [h'])
        · exact Or.inr ⟨y, by simp [hy], hxy⟩

/-- `strLtChars` is irreflexive. -/
theorem strLtChars_irrefl : ∀ a, strLtChars a a = false := by
  intro a
  induction a with
  | nil => rfl
  | cons a as ih => simp [strLtChars, ih]

/-- `strLtChars` is asymmetric. -/
theorem strLtChars_asymm : ∀ a b, strLtChars a b = true → strLtChars b a = false := by
  intro a
  induction a with
  | nil =>
    intro b h
    cases b with
    | nil => simp [strLtChars] at h
    | cons c cs => simp [strLtChars]
  | cons a as ih =>
    intro b h
    cases b with
    | nil => simp [strLtChars] at h
    | cons b bs =>
      simp only [strLtChars] at h ⊢
      by_cases h1 : a.toNat < b.toNat
      · rw [if_neg (by omega : ¬b.toNat < a.toNat), if_pos h1]
      · rw [if_neg h1] at h
        by_cases h2 : b.toNat < a.toNat
        · rw [if_pos h2] at h
          simp at h
        · rw [if_neg h2] at h
          rw [if_neg h2, if_neg h1]
          exact ih bs h

/-- `strLtChars` is transitive. -/
theorem strLtChars_trans :
    ∀ a b c, strLtChars a b = true → strLtChars b c = true → strLtChars a c = true := by
  intro a
  induction a with
  | nil =>
    intro b c hab hbc
    cases c with
    | nil => cases b <;> simp_all [strLtChars]
    | cons c cs => simp [strLtChars]
  | cons a as ih =>
    intro b c hab hbc
    cases b with
    | nil => simp [strLtChars] at hab
    | cons b bs =>
      cases c with
      | nil => simp [strLtChars] at hbc
      | cons c cs =>
        simp only [strLtChars] at hab hbc ⊢
        by_cases h1 : a.toNat < b.toNat
        · by_cases h2 : b.toNat < c.toNat
          · rw [if_pos (by omega : a.toNat < c.toNat)]
          · rw [if_neg h2] at hbc
            by_cases h3 : c.toNat < b.toNat
            · rw [if_pos h3] at hbc
              simp at hbc
            · rw [if_pos (by omega : a.toNat < c.toNat)]
        · rw [if_neg h1] at hab
          by_cases h1' : b.toNat < a.toNat
          · rw [if_pos h1'] at hab
            simp at hab
          · rw [if_neg h1'] at hab
            by_cases h2 : b.toNat < c.toNat
            · rw [if_pos (by omega : a.toNat < c.toNat)]
            · rw [if_neg h2] at hbc
              by_cases h3 : c.toNat < b.toNat
              · rw [if_pos h3] at hbc
                simp at hbc
              · rw [if_neg h3] at hbc
                rw [if_neg (by omega : ¬a.toNat < c.toNat),
                  if_neg (by omega : ¬c.toNat < a.toNat)]
                exact ih bs cs hab hbc

/-- `strLt` is irreflexive. -/
theorem strLt_irrefl (a : String) : strLt a a = false :=
  strLtChars_irrefl a.data

/-- `strLt` is asymmetric. -/
theorem strLt_asymm {a b : String} (h : strLt a b = true) : strLt b a = false :=
  strLtChars_asymm a.data b.data h

/-- `strLt` is transitive. -/
theorem strLt_trans {a b c : String} (hab : strLt a b = true) (hbc : strLt b c = true) :
    strLt a c = true :=
  strLtChars_trans a.data b.data c.data hab hbc

/-- Membership after a multimap insertion. -/
theorem mem_mmapInsert {l : List (String × Nat)} {k : String} {v : Nat}
    {e : String × Nat} (he : e ∈ mmapInsert l k v) : e ∈ l ∨ e = (k, v) := by
  induction l with
  | nil => simpa [mmapInsert] using he
  | cons a l ih =>
    rw [mmapInsert] at he
    by_cases hk : strLt k a.1 = true
    · rcases (by simpa [hk] using he : e = (k, v) ∨ e = a ∨ e ∈ l) with h | h | h
      · exact Or.inr h
      · exact Or.inl (by simp [h])
      · exact Or.inl (by simp [h])
    · rcases (by simpa [hk] using he : e = a ∨ e ∈ mmapInsert l k v) with h | h
      · exact Or.inl (by simp [h])
      · rcases ih h with h' | h'
        · exact Or.inl (by simp [h'])
        · exact Or.inr h'

/-- The multimap iteration-order invariant: keys ascend (no later key is
`strLt`-below an earlier one), and equal keys carry ascending values.
`std::multimap::insert` at the upper bound preserves it whenever the
inserted value exceeds every stored value. -/
theorem mmapInsert_pairwise {l : List (String × Nat)} {k : String} {v : Nat}
    (hl : l.Pairwise (fun a b => strLt b.1 a.1 = false ∧ (a.1 = b.1 → a.2 < b.2)))
    (hv : ∀ e ∈ l, e.2 < v) :
    (mmapInsert l k v).Pairwise
      (fun a b => strLt b.1 a.1 = false ∧ (a.1 = b.1 → a.2 < b.2)) := by
  induction l with
  | nil => simp [mmapInsert]
  | cons a l ih =>
    rw [List.pairwise_cons] at hl
    rw [mmapInsert]
    by_cases hk : strLt k a.1 = true
    · rw [if_pos hk]
      refine List.Pairwise.cons ?_ (List.Pairwise.cons hl.1 hl.2)
      intro e he
      rcases List.mem_cons.mp he with h | h
      · subst h
        refine ⟨strLt_asymm hk, fun hEq => ?_⟩
        rw [show k = a.1 from hEq] at hk
        simp [strLt_irrefl] at hk
      · have he1 := (hl.1 e h).1
        refine ⟨?_, fun hEq => ?_⟩
        · cases hek : strLt e.1 k
          · rfl
          · exact absurd (strLt_trans hek hk) (by simp [he1])
        · rw [show k = e.1 from hEq] at hk
          simp [hk] at he1
    · rw [if_neg hk]
      refine List.Pairwise.cons ?_ (ih hl.2 (fun e he => hv e (List.mem_cons_of_mem _ he)))
      intro e he
      rcases mem_mmapInsert he with h | h
      · exact hl.1 e h
      · subst h
        exact ⟨by simpa using hk, fun _ => hv a (List.mem_cons_self _ _)⟩

/-- The method block never touches the multimap. -/
theorem csdbMethod_mmap (toks : Toks) (st : CsdbState) (idx : Nat) (sp : SpaceInfo)
    (i l : Nat) : (csdbMethod toks st idx sp i l).1.mmap = st.mmap := by
  unfold csdbMethod
  dsimp only
  repeat' split
  all_goals rfl

/-- The method block never changes the arena size. -/
theorem csdbMethod_spaces_length (toks : Toks) (st : CsdbState) (idx : Nat)
    (sp : SpaceInfo) (i l : Nat) :
    (csdbMethod toks st idx sp i l).1.spaces.length = st.spaces.length := by
  unfold csdbMethod
  dsimp only
  repeat' split
  all_goals simp [updateSpace_length]

/-- Any property preserved by the four state transitions of the builder
(scope creation, scope pop, access relabel, method block) holds of every
state the scan reaches. -/
theorem csdbLoop_inv (stdType : String → Bool) (toks : Toks) (P : CsdbState → Prop)
    (hopen : ∀ st (info : SpaceInfo), info.numConstructors = 0 → info.functionList = [] →
      P st →
      P ⟨st.spaces ++ [info], mmapInsert st.mmap info.className st.spaces.length,
         some st.spaces.length⟩)
    (hnest : ∀ st n, P st → P { st with infoIdx := n })
    (hacc : ∀ st idx a, P st →
      P { st with spaces := updateSpace st.spaces idx (fun sp => { sp with access := a }) })
    (hmeth : ∀ st idx sp i l, P st → P (csdbMethod toks st idx sp i l).1) :
    ∀ fuel i st, P st → P (csdbLoop stdType toks fuel i st) := by
  intro fuel
  induction fuel with
  | zero => intro i st h; simpa [csdbLoop] using h
  | succ fuel ih =>
    intro i st h
    rw [csdbLoop]
    dsimp only
    repeat' split
    all_goals first
      | exact h
      | exact ih _ _ h
      | exact ih _ _ (hnest _ _ h)
      | exact ih _ _ (hacc _ _ _ h)
      | exact ih _ _ (hopen st _ rfl rfl h)
      | (next st' resume heq =>
          have hm := congrArg Prod.fst heq
          dsimp only at hm
          exact ih _ _ (hm ▸ hmeth st _ _ _ _ h))
      | (next st' heq =>
          have hm := congrArg Prod.fst heq
          dsimp only at hm
          exact hm ▸ hmeth st _ _ _ _ h)

/-- C3 (amended): checks iterate the symbol database in *lexicographic
`className` order* (the `std::multimap` key order), not in source order;
only among scopes sharing the same `className` does iteration follow the
recording (source) order — keys ascend along `mmap`, and entries with
equal keys carry ascending arena indices (earlier-recorded scope first). -/
theorem buildSymbolDatabase_mmap_sorted (stdType : String → Bool) (toks : Toks) :
    (buildSymbolDatabase stdType toks).mmap.Pairwise
      (fun a b => strLt b.1 a.1 = false ∧ (a.1 = b.1 → a.2 < b.2)) := by
  have main : ∀ fuel i st,
      (st.mmap.Pairwise (fun a b => strLt b.1 a.1 = false ∧ (a.1 = b.1 → a.2 < b.2))
        ∧ ∀ e ∈ st.mmap, e.2 < st.spaces.length) →
      ((csdbLoop stdType toks fuel i st).mmap.Pairwise
          (fun a b => strLt b.1 a.1 = false ∧ (a.1 = b.1 → a.2 < b.2))
        ∧ ∀ e ∈ (csdbLoop stdType toks fuel i st).mmap,
            e.2 < (csdbLoop stdType toks fuel i st).spaces.length) := by
    refine csdbLoop_inv stdType toks _ ?_ ?_ ?_ ?_
    · intro st info _ _ ⟨h1, h2⟩
      refine ⟨mmapInsert_pairwise h1 h2, ?_⟩
      intro e he
      rcases mem_mmapInsert he with h | h
      · calc e.2 < st.spaces.length := h2 e h
          _ < (st.spaces ++ [info]).length := by simp
      · subst h
        simp
    · intro st n ⟨h1, h2⟩
      exact ⟨h1, h2⟩
    · intro st idx a ⟨h1, h2⟩
      refine ⟨h1, ?_⟩
      intro e he
      simpa [updateSpace_length] using h2 e he
    · intro st idx sp i l ⟨h1, h2⟩
      rw [csdbMethod_mmap, csdbMethod_spaces_length]
      exact ⟨h1, h2⟩
  exact (main (toks.length + 1) 0 ⟨[], [], none⟩ (by simp)).1

/-- C3 (counterexample): for `class Z { } ; class A { } ;` the scope `Z`
is recorded first (its header token is 0, `A`'s is 5), yet the multimap
iterates `A` before `Z` — the claim that source order is preserved across
different class names fails. -/
theorem mmap_iteration_counterexample :
    (buildSymbolDatabase stdTypeEx exToksZA).mmap = [("A", 1), ("Z", 0)]
    ∧ (buildSymbolDatabase stdTypeEx exToksZA).spaces.map SpaceInfo.className
      = ["Z", "A"]
    ∧ (buildSymbolDatabase stdTypeEx exToksZA).spaces.map SpaceInfo.classDef
      = [0, 5] := by
  decide

/-! # Claim C4 -/

/-- The number of `Func` entries classified `Constructor` or
`CopyConstructor`. -/
def ctorCount (l : List Func) : Nat :=
  l.countP fun f => f.type = .Constructor ∨ f.type = .CopyConstructor

/-- Updating the same arena slot twice composes the updates. -/
theorem updateSpace_updateSpace (l : List SpaceInfo) (i : Nat)
    (f g : SpaceInfo → SpaceInfo) :
    updateSpace (updateSpace l i f) i g = updateSpace l i (fun x => g (f x)) := by
  induction l generalizing i with
  | nil => rfl
  | cons a l ih => cases i <;> simp [updateSpace, ih]

/-- Appending a method while adding its `ctorInc` preserves the count
invariant. -/
theorem ctorCount_push (y : SpaceInfo) (fn : Func) (t : FuncType) (ht : fn.type = t)
    (hy : y.numConstructors = ctorCount y.functionList) :
    y.numConstructors + ctorInc t = ctorCount (y.functionList ++ [fn]) := by
  subst ht
  rw [hy]
  unfold ctorCount ctorInc
  rw [List.countP_append]
  by_cases h : fn.type = .Constructor ∨ fn.type = .CopyConstructor <;>
    simp [h, List.countP_cons]

/-- The method block preserves the count invariant: it increments
`numConstructors` exactly when the method it appends to `functionList` is
classified `Constructor`/`CopyConstructor`. -/
theorem csdbMethod_ctorInv (toks : Toks) (st : CsdbState) (idx : Nat)
    (sp : SpaceInfo) (i l : Nat)
    (hP : ∀ x ∈ st.spaces, x.numConstructors = ctorCount x.functionList) :
    ∀ x ∈ (csdbMethod toks st idx sp i l).1.spaces,
      x.numConstructors = ctorCount x.functionList := by
  unfold csdbMethod
  dsimp only
  repeat' split
  all_goals (
    intro x hx
    rw [updateSpace_updateSpace] at hx
    rcases mem_updateSpace hx with hx' | ⟨y, hy, rfl⟩
    · exact hP x hx'
    · dsimp only
      exact ctorCount_push y _ _ rfl (hP y hy))

/-- C4: after the build, every scope's `numConstructors` equals the number
of its `functionList` entries of type `Constructor` or `CopyConstructor`. -/
theorem numConstructors_eq_ctorCount (stdType : String → Bool) (toks : Toks) :
    ∀ sp ∈ (buildSymbolDatabase stdType toks).spaces,
      sp.numConstructors = ctorCount sp.functionList := by
  refine csdbLoop_inv stdType toks
    (fun st => ∀ x ∈ st.spaces, x.numConstructors = ctorCount x.functionList)
    ?_ ?_ ?_ ?_ (toks.length + 1) 0 ⟨[], [], none⟩ ?_
  · intro st info h0 hfl h x hx
    rcases List.mem_append.mp hx with hx' | hx'
    · exact h x hx'
    · rw [List.mem_singleton.mp hx', h0, hfl]
      rfl
  · intro st n h
    exact h
  · intro st idx a h x hx
    rcases mem_updateSpace hx with hx' | ⟨y, hy, rfl⟩
    · exact h x hx'
    · simpa [ctorCount] using h y hy
  · intro st idx sp i l h
    exact csdbMethod_ctorInv toks st idx sp i l h
  · intro x hx
    simp at hx

/-- C4 (witness): the invariant at the class of `exToksCtor`
(two constructors, one destructor). -/
theorem numConstructors_eq_ctorCount_witness :
    ((buildSymbolDatabase stdTypeEx exToksCtor).spaces.headD dummySpace).numConstructors
      = ctorCount ((buildSymbolDatabase stdTypeEx
          exToksCtor).spaces.headD dummySpace).functionList :=
  numConstructors_eq_ctorCount stdTypeEx exToksCtor _ (by decide)

/-! # Claim C5 -/

/-- C5: `createSymbolDatabase` is idempotent — the `hasSymbolDatabase`
guard makes a second invocation leave the checker state unchanged. -/
theorem createSymbolDatabase_idempotent (stdType : String → Bool) (toks : Toks)
    (st : CheckClassState) :
    createSymbolDatabase stdType toks (createSymbolDatabase stdType toks st)
      = createSymbolDatabase stdType toks st := by
  unfold createSymbolDatabase
  by_cases h : st.hasSymbolDatabase <;> simp [h]

/-! # Claim C6 -/

/-- C6: the per-class `noConstructor` report fires exactly when
`numConstructors` is zero and some member is private, non-class and
non-static. -/
theorem noConstructorPart_iff (toks : Toks) (info : SpaceInfo) :
    noConstructorPart toks info ≠ []
      ↔ info.numConstructors = 0
        ∧ ∃ v ∈ info.varlist, v.priv = true ∧ v.isClass = false ∧ v.isStatic = false := by
  unfold noConstructorPart
  by_cases h0 : info.numConstructors = 0
  · rw [if_pos h0]
    cases hf : info.varlist.find? (fun var => var.priv && !var.isClass && !var.isStatic) with
    | none =>
      have hall := List.find?_eq_none.mp hf
      simp only [ne_eq, not_true_eq_false, false_iff, not_and]
      intro _
      rintro ⟨v, hv, hpriv, hcls, hstat⟩
      have hs : v.isStatic = true :=
        (by simpa using hall v hv : v.priv = true → v.isClass = false → v.isStatic = true)
          hpriv hcls
      exact absurd hs (by simp [hstat])
    | some v =>
      have hmem := List.mem_of_find?_eq_some hf
      have hpred := List.find?_some hf
      simp only [ne_eq, List.cons_ne_self, not_false_eq_true, true_iff]
      refine ⟨h0, v, hmem, ?_⟩
      simpa [Bool.and_eq_true, Bool.not_eq_true', and_assoc] using hpred
  · rw [if_neg h0]
    simp [h0]

/-! # Claim C7 -/

/-- Lock-step acceptance: on two identical argument runs containing a `)`
and no `=`, every branch of the walk advances both cursors together until
the `)` accepts. -/
theorem argsMatchLoop_self (path : List String) :
    ∀ (fuel : Nat) (t : List String), t.length < fuel → "=" ∉ t → ")" ∈ t →
      argsMatchLoop fuel t t path 0 = true := by
  intro fuel
  induction fuel with
  | zero => intro t ht _ _; omega
  | succ fuel ih =>
    intro t hlen hne hrp
    match t with
    | [] => simp at hrp
    | t0 :: rest =>
      rw [argsMatchLoop]
      dsimp only
      rw [if_neg (by simp)]
      by_cases h0 : t0 = ")"
      · rw [if_pos h0]
      · rw [if_neg h0]
        have hne' : rest.headD "" ≠ "=" := by
          cases rest with
          | nil => simp
          | cons a _ =>
            simp only [List.headD_cons]
            intro h
            exact hne (by simp [h])
        rw [if_neg hne']
        rw [if_neg (by tauto), if_neg (by tauto), if_neg (by tauto), if_neg (by tauto),
          if_neg h0, if_neg (by tauto), if_neg (by tauto)]
        exact ih rest (by simpa using Nat.lt_of_succ_lt_succ (by simpa using hlen))
          (fun h => hne (by simp [h]))
          (by rcases List.mem_cons.mp hrp with h | h
              · exact absurd h.symm h0
              · exact h)

/-- C7 (amended): `argsMatch` accepts a pair of identical argument-list
runs when the run reaches a `)` and contains no `=` token; a default-value
expression (`= value`) breaks the lock step even between identical runs,
so the claim holds only in the absence of `=`.  (On identical runs,
swapping the two arguments is the same call, so symmetry there is
immediate.) -/
theorem argsMatch_self_accepts (path : List String) (t : List String)
    (hne : "=" ∉ t) (hrp : ")" ∈ t) : argsMatch t t path 0 = true := by
  unfold argsMatch
  exact argsMatchLoop_self path _ t (by omega) hne hrp

/-- C7 (witness): an ordinary identical signature run is accepted. -/
theorem argsMatch_self_accepts_witness :
    ("=" ∉ ["const", "int", "x", ")"] ∧ ")" ∈ ["const", "int", "x", ")"])
    ∧ argsMatch ["const", "int", "x", ")"] ["const", "int", "x", ")"] [] 0 = true :=
  ⟨⟨by decide, by decide⟩, argsMatch_self_accepts [] _ (by decide) (by decide)⟩

/-- C7 (counterexample): the identical runs of `( int x = 5 )` — a
default-value parameter — are rejected by `argsMatch`, and so is the pair
that differs only by dropping the `= 5` on the definition side; the
default-value skip advances only the first cursor (onto the value token)
and the walk falls out of step. -/
theorem argsMatch_identical_default_counterexample :
    argsMatch ["int", "x", "=", "5", ")"] ["int", "x", "=", "5", ")"] [] 0 = false
    ∧ argsMatch ["int", "x", "=", "5", ")"] ["int", "x", ")"] [] 0 = false := by
  decide

/-! # Claim C8 -/

/-- A successful `matchClose` lands inside the scanned tail. -/
theorem matchClose_lt {o c : String} :
    ∀ {l : Toks} {d k : Nat}, matchClose o c l d = some k → k < l.length := by
  intro l
  induction l with
  | nil => intro d k h; simp [matchClose] at h
  | cons t ts ih =>
    intro d k h
    rw [matchClose] at h
    split at h
    · split at h
      · cases h
        simp
      · obtain ⟨k', hk', rfl⟩ := Option.map_eq_some'.mp h
        have := ih hk'
        simp only [List.length_cons]
        omega
    · split at h
      all_goals (
        obtain ⟨k', hk', rfl⟩ := Option.map_eq_some'.mp h
        have := ih hk'
        simp only [List.length_cons]
        omega)

/-- A successful `link` lands inside the stream. -/
theorem link_lt {toks : Toks} {i j : Nat} (h : link toks i = some j) :
    j < toks.length := by
  unfold link at h
  dsimp only at h
  split at h
  any_goals exact Option.noConfusion h
  all_goals (
    obtain ⟨k, hk, rfl⟩ := Option.map_eq_some'.mp h
    have hlt := matchClose_lt hk
    have hdl : (toks.drop (i + 1)).length = toks.length - (i + 1) :=
      List.length_drop _ _
    omega)

/-- Without any `return` between `p` and `last`, the body walk runs to its
end and then reports exactly the missing-return diagnostic. -/
theorem oerrtWalk_noReturn (toks : Toks) (className : String) (errTok : Nat) :
    ∀ (fuel p last : Nat), p ≤ last → last - p < fuel →
      (∀ j, p ≤ j → j < last → strAt toks j ≠ "return") →
      oerrtWalk toks className errTok fuel p last false
        = [.operatorEqRetRefThis errTok] := by
  intro fuel
  induction fuel with
  | zero => intro p last h1 h2 _; omega
  | succ fuel ih =>
    intro p last hple hfuel hnr
    rw [oerrtWalk]
    by_cases hstop : p = last ∨ p ≥ toks.length
    · rw [if_pos hstop]
      simp
    · rw [if_neg hstop]
      push_neg at hstop
      rw [if_neg (hnr p le_rfl (by omega))]
      exact ih (p + 1) last (by omega) (by omega)
        (fun j hj hj2 => hnr j (by omega) hj2)

/-- C8: an `OperatorEqual` method with a body whose declared return type
matches `ClassName &`, and whose body contains no `return` token at all,
is reported by `operatorEqRetRefThis`. -/
theorem operatorEqRetRefThis_noReturn_emits (toks : Toks) (info : SpaceInfo)
    (it : Func) (hty : it.type = .OperatorEqual) (hbody : it.hasBody = true)
    (hsig : oerrtRetSig toks info.className it.tokenDef = true)
    (rp last : Nat) (hrp : link toks (it.token + 1) = some rp)
    (hlast : (link toks (rp + 1)).getD toks.length = last)
    (hple : rp + 2 ≤ last)
    (hnoret : ∀ j, rp + 2 ≤ j → j < last → strAt toks j ≠ "return") :
    operatorEqRetRefThisFunc toks info it = [.operatorEqRetRefThis it.token] := by
  have hlast_le : last ≤ toks.length := by
    rcases hl : link toks (rp + 1) with _ | l
    · rw [hl] at hlast
      simp at hlast
      omega
    · rw [hl] at hlast
      have := link_lt hl
      simp at hlast
      omega
  unfold operatorEqRetRefThisFunc
  rw [if_pos ⟨hty, hbody⟩, if_pos hsig, hrp]
  dsimp only
  rw [hlast]
  exact oerrtWalk_noReturn toks info.className it.token (toks.length + 1) (rp + 2)
    last hple (by omega) hnoret

/-- C8 (witness): `class A { public: A & operator = ( const A & a ) { } } ;`
— the empty body has no `return`, and the report fires. -/
theorem operatorEqRetRefThis_noReturn_witness :
    operatorEqRetRefThisFunc exToksOpEqNoRet { dummySpace with className := "A" }
        { Func.default with
            type := .OperatorEqual, hasBody := true, tokenDef := 7, token := 7 }
      = [.operatorEqRetRefThis 7] :=
  operatorEqRetRefThis_noReturn_emits _ _ _ rfl rfl (by decide) 13 15 (by decide)
    (by decide) (by decide)
    (by intro j h1 h2; exact absurd (lt_of_le_of_lt h1 h2) (by decide))

/-! # Claim C9 -/

/-- When the backward access scan reports `public`, some `public:` token
lies at or below the start position, no `protected:`/`private:` label sits
between it and the start, and every opening brace between them was passed
with a strictly negative running indent. -/
theorem vdPublicWalk_true_shape (toks : Toks) :
    ∀ (i : Nat) (indent : Int), vdPublicWalk toks i indent = true →
      ∃ j, j ≤ i ∧ strAt toks j = "public:"
        ∧ (∀ k, j < k → k ≤ i →
            strAt toks k ≠ "protected:" ∧ strAt toks k ≠ "private:")
        ∧ (∀ k, j < k → k ≤ i → strAt toks k = "\x7b" →
            indent + vdDelta toks k i < 0) := by
  intro i
  induction i with
  | zero =>
    intro indent h
    rw [vdPublicWalk] at h
    have h0 : strAt toks 0 = "public:" := by simpa using h
    exact ⟨0, le_rfl, h0,
      fun k hk1 hk2 => absurd (lt_of_lt_of_le hk1 hk2) (lt_irrefl 0),
      fun k hk1 hk2 _ => absurd (lt_of_lt_of_le hk1 hk2) (lt_irrefl 0)⟩
  | succ i ih =>
    intro indent h
    rw [vdPublicWalk] at h
    by_cases h1 : strAt toks (i + 1) = "public:"
    · exact ⟨i + 1, le_rfl, h1,
        fun k hk1 hk2 => absurd (lt_of_lt_of_le hk1 hk2) (lt_irrefl _),
        fun k hk1 hk2 _ => absurd (lt_of_lt_of_le hk1 hk2) (lt_irrefl _)⟩
    · rw [if_neg h1] at h
      by_cases h2 : strAt toks (i + 1) = "protected:" ∨ strAt toks (i + 1) = "private:"
      · rw [if_pos h2] at h
        exact absurd h (by simp)
      · rw [if_neg h2] at h
        by_cases h3 : strAt toks (i + 1) = "\x7b" ∧ indent + 1 ≥ 1
        · rw [if_pos h3] at h
          exact absurd h (by simp)
        · rw [if_neg h3] at h
          obtain ⟨j, hj, hpub, hlab, hbr⟩ := ih _ h
          refine ⟨j, Nat.le_succ_of_le hj, hpub, ?_, ?_⟩
          · intro k hk1 hk2
            rcases Nat.eq_or_lt_of_le hk2 with rfl | hk
            · exact ⟨fun hc => h2 (Or.inl hc), fun hc => h2 (Or.inr hc)⟩
            · exact hlab k hk1 (Nat.lt_succ_iff.mp hk)
          · intro k hk1 hk2 hbrace
            rcases Nat.eq_or_lt_of_le hk2 with rfl | hk
            · have hni : ¬(indent + 1 ≥ 1) := fun hge => h3 ⟨hbrace, hge⟩
              rw [vdDelta, if_pos le_rfl]
              omega
            · have hk' : k ≤ i := Nat.lt_succ_iff.mp hk
              have hihb := hbr k hk1 hk' hbrace
              rw [vdDelta, if_neg (by omega)]
              by_cases hb1 : strAt toks (i + 1) = "\x7b"
              · rw [if_pos hb1]
                rw [if_pos hb1] at hihb
                omega
              · rw [if_neg hb1]
                rw [if_neg hb1] at hihb
                by_cases hb2 : strAt toks (i + 1) = "\x7d"
                · rw [if_pos hb2]
                  rw [if_pos hb2] at hihb
                  omega
                · rw [if_neg hb2]
                  rw [if_neg hb2] at hihb
                  omega

/-- The backward `virtual` scan cannot fall off the stream start when some
non-name token sits at or below the start position. -/
theorem vdVirtWalk_isSome (toks : Toks) :
    ∀ i, (∃ j, j ≤ i ∧ isNameTok (strAt toks j) = false) →
      (vdVirtWalk toks i).isSome = true := by
  intro i
  induction i with
  | zero =>
    rintro ⟨j, hj, hname⟩
    have hj0 : j = 0 := Nat.le_zero.mp hj
    subst hj0
    rw [vdVirtWalk]
    rw [if_pos (Or.inl (by simp [hname]))]
    rfl
  | succ i ih =>
    rintro ⟨j, hj, hname⟩
    rw [vdVirtWalk]
    by_cases hc : ¬(isNameTok (strAt toks (i + 1)) = true) ∨ strAt toks (i + 1) = "virtual"
    · rw [if_pos hc]
      rfl
    · rw [if_neg hc]
      rcases Nat.eq_or_lt_of_le hj with rfl | hlt
      · exact absurd (Or.inl (by simp [hname])) hc
      · exact ih ⟨j, Nat.lt_succ_iff.mp hlt, hname⟩

/-- The backward access scan from a destructor that sits in a
protected/private section reports nothing: either the nearest access label
below the start is `protected:`/`private:` (with the enclosing class body
opener somewhere below the label), or the class opener is reached with a
non-negative running indent and no `public:` in between. -/
theorem vdPublicWalk_section_false (toks : Toks) (b : Nat)
    (hsec : (∃ j, j ≤ b ∧ (strAt toks j = "protected:" ∨ strAt toks j = "private:")
        ∧ (∀ k, j < k → k ≤ b → strAt toks k ≠ "public:"
          ∧ strAt toks k ≠ "protected:" ∧ strAt toks k ≠ "private:")
        ∧ ∃ o, o ≤ j ∧ strAt toks o = "\x7b")
      ∨ (∃ o, o ≤ b ∧ strAt toks o = "\x7b" ∧ 0 ≤ vdDelta toks o b
        ∧ ∀ k, o < k → k ≤ b → strAt toks k ≠ "public:")) :
    vdPublicWalk toks b 0 = false := by
  by_contra hne
  have htrue : vdPublicWalk toks b 0 = true := by
    cases hv : vdPublicWalk toks b 0
    · exact absurd hv hne
    · rfl
  obtain ⟨j', hj', hpub, hlab, hbr⟩ := vdPublicWalk_true_shape toks b 0 htrue
  rcases hsec with ⟨j, hj, hjlabel, hbetween, -⟩ | ⟨o, ho, hbrace, hdelta, hnopub⟩
  · rcases Nat.lt_trichotomy j j' with h | h | h
    · exact (hbetween j' h hj').1 hpub
    · subst h
      rcases hjlabel with hl | hl
      · rw [hpub] at hl
        exact absurd hl (by decide)
      · rw [hpub] at hl
        exact absurd hl (by decide)
    · rcases hjlabel with hl | hl
      · exact (hlab j h hj).1 hl
      · exact (hlab j h hj).2 hl
  · rcases Nat.lt_trichotomy o j' with h | h | h
    · exact hnopub j' h hj' hpub
    · subst h
      rw [hpub] at hbrace
      exact absurd hbrace (by decide)
    · have hneg := hbr o h ho hbrace
      omega

/-- Per-base suppression (checkclass.cpp:1648-1715): when the located base
destructor sits in a protected/private section, the per-base decision emits
no report at all — the `virtual` back-scan stops at a non-name token, and
the access scan never reaches `public:`. -/
theorem vdCheckBase_suppressed (toks : Toks) (dn bn : String) (b : Nat)
    (hfind : vdFindDtor toks bn (toks.length + 1) 0 = some b)
    (hsec : (∃ j, j ≤ b ∧ (strAt toks j = "protected:" ∨ strAt toks j = "private:")
        ∧ (∀ k, j < k → k ≤ b → strAt toks k ≠ "public:"
          ∧ strAt toks k ≠ "protected:" ∧ strAt toks k ≠ "private:")
        ∧ ∃ o, o ≤ j ∧ strAt toks o = "\x7b")
      ∨ (∃ o, o ≤ b ∧ strAt toks o = "\x7b" ∧ 0 ≤ vdDelta toks o b
        ∧ ∀ k, o < k → k ≤ b → strAt toks k ≠ "public:")) :
    vdCheckBase toks dn bn = [] := by
  have hnn : ∃ o, o ≤ b ∧ isNameTok (strAt toks o) = false := by
    rcases hsec with ⟨j, hj, -, -, o, ho, hob⟩ | ⟨o, ho, hob, -, -⟩
    · exact ⟨o, le_trans ho hj, by rw [hob]; decide⟩
    · exact ⟨o, ho, by rw [hob]; decide⟩
  obtain ⟨v, hv⟩ := Option.isSome_iff_exists.mp (vdVirtWalk_isSome toks b hnn)
  have hwalk : vdPublicWalk toks b 0 = false := vdPublicWalk_section_false toks b hsec
  simp only [vdCheckBase, hfind, Option.bind, hv]
  split
  · rfl
  · split
    · rfl
    · rw [if_neg (by simp [hwalk])]

/-- Every report of the per-base decision names that base and that derived
class. -/
theorem vdCheckBase_names (toks : Toks) (dn bn : String) (dg : Diag)
    (h : dg ∈ vdCheckBase toks dn bn) :
    ∃ v, dg = Diag.virtualDestructor v bn dn := by
  rcases hb : vdFindDtor toks bn (toks.length + 1) 0 with _ | b
  · simp only [vdCheckBase, hb, Option.bind] at h
    rcases hc : findPat toks [.lit "class", .lit bn, .lit "\x7b"] 0 none with _ | cls
    · rw [hc] at h
      simp at h
    · rw [hc] at h
      simp only [List.mem_singleton] at h
      exact ⟨cls, h⟩
  · rcases hvw : vdVirtWalk toks b with _ | v
    · simp only [vdCheckBase, hb, Option.bind, hvw] at h
      rcases hc : findPat toks [.lit "class", .lit bn, .lit "\x7b"] 0 none with _ | cls
      · rw [hc] at h
        simp at h
      · rw [hc] at h
        simp only [List.mem_singleton] at h
        exact ⟨cls, h⟩
    · simp only [vdCheckBase, hb, Option.bind, hvw] at h
      by_cases h1 : strAt toks v = "virtual"
      · rw [if_pos h1] at h
        simp at h
      · rw [if_neg h1] at h
        by_cases h2 : (findPat toks [.lit "class", .lit bn, .lit "\x7b"] 0 none).isNone = true
        · rw [if_pos h2] at h
          simp at h
        · rw [if_neg h2] at h
          by_cases h3 : vdPublicWalk toks b 0 = true
          · rw [if_pos h3] at h
            simp only [List.mem_singleton] at h
            exact ⟨v, h⟩
          · rw [if_neg h3] at h
            simp at h

/-- Every report of the base-list iteration comes from the per-base
decision of some base name. -/
theorem vdBaseLoop_mem (toks : Toks) (dn : String) :
    ∀ (fuel d : Nat) (dg : Diag), dg ∈ (vdBaseLoop toks dn fuel d).1 →
      ∃ bn, dg ∈ vdCheckBase toks dn bn := by
  intro fuel
  induction fuel with
  | zero =>
    intro d dg h
    simp [vdBaseLoop] at h
  | succ fuel ih =>
    intro d dg h
    rw [vdBaseLoop] at h
    dsimp only at h
    by_cases h1 : d ≥ toks.length
    · rw [if_pos h1] at h
      simp at h
    · rw [if_neg h1] at h
      by_cases h2 : ¬(isNameTok (strAt toks d) = true)
      · rw [if_pos h2] at h
        simp at h
      · rw [if_neg h2] at h
        set d1 := if strAt toks d = "public" ∨ strAt toks d = "protected"
            ∨ strAt toks d = "private" then d + 1 else d with hd1
        rcases ha : vdBaseAdvance toks (toks.length + 1) d1 with _ | d'
        · rw [ha] at h
          dsimp only at h
          by_cases hp : strAt toks d = "public"
          · rw [if_pos hp] at h
            exact ⟨strAt toks d1, h⟩
          · rw [if_neg hp] at h
            simp at h
        · rw [ha] at h
          dsimp only at h
          rcases hbl : vdBaseLoop toks dn fuel d' with ⟨rest, fin⟩
          rw [hbl] at h
          dsimp only at h
          rcases List.mem_append.mp h with h | h
          · by_cases hp : strAt toks d = "public"
            · rw [if_pos hp] at h
              exact ⟨strAt toks d1, h⟩
            · rw [if_neg hp] at h
              simp at h
          · exact ih d' dg (by rw [hbl]; exact h)

/-- Every report of the derived-class loop comes from the per-base decision
of some derived/base name pair. -/
theorem vdLoop_mem (toks : Toks) :
    ∀ (fuel from_ : Nat) (dg : Diag), dg ∈ vdLoop toks fuel from_ →
      ∃ dn bn, dg ∈ vdCheckBase toks dn bn := by
  intro fuel
  induction fuel with
  | zero =>
    intro f dg h
    simp [vdLoop] at h
  | succ fuel ih =>
    intro f dg h
    rw [vdLoop] at h
    rcases hfd : findPat toks [.lit "class", .name, .lit ":", .name] f none with _ | derived
    · rw [hfd] at h
      simp at h
    · rw [hfd] at h
      dsimp only at h
      rcases hdd : findPat toks
          [.lit "~", .lit (strAt toks (derived + 1)), .lit "(", .lit ")", .lit "\x7b"]
          0 none with _ | dd
      · rw [hdd] at h
        dsimp only at h
        exact ih _ _ h
      · rw [hdd] at h
        dsimp only at h
        by_cases hm : matchAt toks dd
            [.lit "~", .name, .lit "(", .lit ")", .lit "\x7b", .lit "\x7d"] = true
        · rw [if_pos hm] at h
          exact ih _ _ h
        · rw [if_neg hm] at h
          rcases hbl : vdBaseLoop toks (strAt toks (derived + 1)) (toks.length + 1)
              (derived + 3) with ⟨diags, fin⟩
          rw [hbl] at h
          cases fin with
          | none =>
            dsimp only at h
            obtain ⟨bn, hbn⟩ := vdBaseLoop_mem toks _ _ _ dg (by rw [hbl]; exact h)
            exact ⟨_, bn, hbn⟩
          | some p =>
            dsimp only at h
            rcases List.mem_append.mp h with h | h
            · obtain ⟨bn, hbn⟩ := vdBaseLoop_mem toks _ _ _ dg (by rw [hbl]; exact h)
              exact ⟨_, bn, hbn⟩
            · exact ih _ _ h

/-- C9: (i) with `settings.inconclusive` unset the virtual-destructor check
emits nothing at all; (ii) the check never reports a base class whose
located destructor declaration sits in a protected or private section of
the class: when, walking backward from the destructor position, the nearest
access label is `protected:` or `private:` (with the class-body opener
somewhere below the label), or the class opener is reached with non-negative
running indent and no `public:` in between, no `virtualDestructor`
diagnostic naming that base is emitted for any derived class. -/
theorem virtualDestructor_gating_and_access :
    (∀ (s : Settings) (toks : Toks), s.inconclusive = false →
        virtualDestructorCheck s toks = [])
    ∧ (∀ (s : Settings) (toks : Toks) (baseName : String) (b : Nat),
        vdFindDtor toks baseName (toks.length + 1) 0 = some b →
        ((∃ j, j ≤ b ∧ (strAt toks j = "protected:" ∨ strAt toks j = "private:")
            ∧ (∀ k, j < k → k ≤ b → strAt toks k ≠ "public:"
              ∧ strAt toks k ≠ "protected:" ∧ strAt toks k ≠ "private:")
            ∧ ∃ o, o ≤ j ∧ strAt toks o = "\x7b")
          ∨ (∃ o, o ≤ b ∧ strAt toks o = "\x7b" ∧ 0 ≤ vdDelta toks o b
            ∧ ∀ k, o < k → k ≤ b → strAt toks k ≠ "public:")) →
        ∀ (v : Nat) (derivedName : String),
          Diag.virtualDestructor v baseName derivedName ∉ virtualDestructorCheck s toks) := by
  constructor
  · intro s toks h
    unfold virtualDestructorCheck
    rw [if_pos (by simp [h])]
  · intro s toks bn b hfind hsec v dn hmem
    unfold virtualDestructorCheck at hmem
    by_cases hs : ¬s.inconclusive = true
    · rw [if_pos hs] at hmem
      simp at hmem
    · rw [if_neg hs] at hmem
      obtain ⟨dn', bn', hcb⟩ := vdLoop_mem toks _ _ _ hmem
      obtain ⟨v', hv'⟩ := vdCheckBase_names toks dn' bn' _ hcb
      injection hv' with hv1 hv2 hv3
      subst hv2
      subst hv3
      rw [vdCheckBase_suppressed toks dn bn b hfind hsec] at hcb
      simp at hcb

/-- C9 (witness): the gate on spec scenario S6, and a base class whose
destructor follows a `protected:` label behind a method body, with an
earlier `public:` section in the same class — no report names that base. -/
theorem virtualDestructor_gating_and_access_witness :
    virtualDestructorCheck ⟨true, false⟩ exToksVd = []
    ∧ Diag.virtualDestructor 30 "B" "D" ∉ virtualDestructorCheck ⟨true, true⟩ exToksVd2 := by
  refine ⟨virtualDestructor_gating_and_access.1 ⟨true, false⟩ exToksVd rfl,
    virtualDestructor_gating_and_access.2 ⟨true, true⟩ exToksVd2 "B" 29 (by decide)
      (Or.inl ⟨24, by omega, Or.inl (by decide), ?_, 18, by omega, by decide⟩) 30 "D"⟩
  intro k h1 h2
  interval_cases k <;> decide

/-! # Claim C10 -/

/-- One dataflow mutation leaves a member record unchanged or sets its
`init` flag to `true` — never anything else. -/
def InitUpgrade (a b : Var) : Prop :=
  b = a ∨ b = { a with init := true }

/-- `InitUpgrade` lifted to lists is reflexive. -/
theorem initUpgradeL_refl : ∀ l : List Var, List.Forall₂ InitUpgrade l l := by
  intro l
  induction l with
  | nil => exact List.Forall₂.nil
  | cons a l ih => exact List.Forall₂.cons (Or.inl rfl) ih

/-- `InitUpgrade` is transitive. -/
theorem initUpgrade_trans {a b c : Var} (h1 : InitUpgrade a b)
    (h2 : InitUpgrade b c) : InitUpgrade a c := by
  rcases h1 with rfl | rfl
  · exact h2
  · rcases h2 with rfl | rfl
    · exact Or.inr rfl
    · exact Or.inr rfl

/-- `InitUpgrade` lifted to lists is transitive. -/
theorem initUpgradeL_trans : ∀ {l1 l2 l3 : List Var},
    List.Forall₂ InitUpgrade l1 l2 → List.Forall₂ InitUpgrade l2 l3 →
      List.Forall₂ InitUpgrade l1 l3 := by
  intro l1 l2 l3 h1
  induction h1 generalizing l3 with
  | nil => intro h2; cases h2; exact .nil
  | cons ha hl ih =>
    intro h2
    cases h2 with
    | cons hb hl2 => exact .cons (initUpgrade_trans ha hb) (ih hl2)

/-- `initVar` only upgrades. -/
theorem initVar_upgrade : ∀ (l : List Var) (n : String),
    List.Forall₂ InitUpgrade l (initVar l n) := by
  intro l n
  induction l with
  | nil => exact .nil
  | cons v vs ih =>
    rw [initVar]
    by_cases h : v.name = n
    · rw [if_pos h]
      exact .cons (Or.inr rfl) (initUpgradeL_refl vs)
    · rw [if_neg h]
      exact .cons (Or.inl rfl) ih

/-- The bail-out only upgrades. -/
theorem setAllInit_upgrade : ∀ l : List Var, List.Forall₂ InitUpgrade l (setAllInit l) := by
  intro l
  induction l with
  | nil => exact .nil
  | cons v vs ih => exact .cons (Or.inr rfl) ih

/-- The external-argument scan only upgrades. -/
theorem ivlArgScan_upgrade (toks : Toks) : ∀ (fuel p level : Nat) (l : List Var),
    List.Forall₂ InitUpgrade l (ivlArgScan toks fuel p level l) := by
  intro fuel
  induction fuel with
  | zero => intro p level l; exact initUpgradeL_refl l
  | succ fuel ih =>
    intro p level l
    rw [ivlArgScan]
    dsimp only
    repeat' split
    all_goals first
      | exact initUpgradeL_refl _
      | exact ih _ _ _
      | exact initUpgradeL_trans (initVar_upgrade _ _) (ih _ _ _)

/-- The initializer-list handling only upgrades. -/
theorem ivlInitList_upgrade (toks : Toks) (i indent : Nat) (assign : Bool)
    (l : List Var) : List.Forall₂ InitUpgrade l (ivlInitList toks i indent assign l) := by
  unfold ivlInitList
  repeat' split
  all_goals first
    | exact initUpgradeL_refl _
    | exact initVar_upgrade _ _
    | exact initUpgradeL_trans (initVar_upgrade _ _) (initVar_upgrade _ _)

/-- The stream-read mark only upgrades. -/
theorem ivlStream_upgrade (toks : Toks) (i : Nat) (l : List Var) :
    List.Forall₂ InitUpgrade l (ivlStream toks i l) := by
  unfold ivlStream
  split
  · exact initVar_upgrade _ _
  · exact initUpgradeL_refl _

/-- The assignment ladder only upgrades. -/
theorem ivlAssignMarks_upgrade (toks : Toks) (cur : Nat) (l : List Var) :
    List.Forall₂ InitUpgrade l (ivlAssignMarks toks cur l) := by
  unfold ivlAssignMarks
  repeat' split
  all_goals first
    | exact initUpgradeL_refl _
    | exact initVar_upgrade _ _

/-- The clear-helper mark only upgrades. -/
theorem ivlClearMark_upgrade (toks : Toks) (cur : Nat) (l : List Var) :
    List.Forall₂ InitUpgrade l (ivlClearMark toks cur l) := by
  unfold ivlClearMark
  split
  · exact initVar_upgrade _ _
  · exact initUpgradeL_refl _

/-- C10: the constructor-initialization dataflow is monotone in the
`init` flags — every record of the variable list is either unchanged or
has its `init` flag set to `true` (all other fields intact), across all
branches and the recursive descent through the callstack; no step ever
resets a flag to `false`, for any resolver oracle. -/
theorem initializeVarList_upgrade (toks : Toks) (oracle : FindClassFunction)
    (tok1 : Nat) :
    ∀ (fuel i indent : Nat) (assign : Bool) (varlist : List Var)
      (callstack : List String),
      List.Forall₂ InitUpgrade varlist
        (initializeVarList toks oracle tok1 fuel i indent assign varlist callstack) := by
  intro fuel
  induction fuel with
  | zero => intro i ind a vl cs; exact initUpgradeL_refl vl
  | succ fuel ih =>
    intro i ind asg vl cs
    rw [initializeVarList]
    dsimp only
    by_cases c1 : i + 1 ≥ toks.length
    · rw [if_pos c1]
      exact initUpgradeL_refl vl
    rw [if_neg c1]
    have hA : List.Forall₂ InitUpgrade vl (ivlInitList toks i ind asg vl) :=
      ivlInitList_upgrade toks i ind asg vl
    have hB : List.Forall₂ InitUpgrade vl
        (ivlStream toks i (ivlInitList toks i ind asg vl)) :=
      initUpgradeL_trans hA (ivlStream_upgrade toks i _)
    by_cases c2 : strAt toks i = "\x7d" ∧ (if strAt toks i = "\x7b" then ind + 1 else ind) ≤ 1
    · rw [if_pos c2]
      exact hA
    rw [if_neg c2]
    by_cases c3 : (if strAt toks i = "\x7d" then
        (if strAt toks i = "\x7b" then ind + 1 else ind) - 1
      else if strAt toks i = "\x7b" then ind + 1 else ind) < 1
    · rw [if_pos c3]
      exact initUpgradeL_trans hA (ih _ _ _ _ _)
    rw [if_neg c3]
    by_cases c4 : ¬(strAt toks i = "\x7b" ∨ strAt toks i = "\x7d" ∨ strAt toks i = ";"
        ∨ strAt toks i = "(" ∨ strAt toks i = ")" ∨ strAt toks i = "=")
    · rw [if_pos c4]
      exact initUpgradeL_trans hB (ih _ _ _ _ _)
    rw [if_neg c4]
    by_cases c5 : strAt toks (ivlGateTok toks i + 1) = "*"
        ∧ strAt toks (ivlGateTok toks i + 2) = "this"
        ∧ strAt toks (ivlGateTok toks i + 3) = "="
    · rw [if_pos c5]
      exact initUpgradeL_trans hB (setAllInit_upgrade _)
    rw [if_neg c5]
    by_cases c6 : ¬(ivlHeadOk toks (ivlDotCallTok toks (ivlGateTok toks i)) = true)
    · rw [if_pos c6]
      exact initUpgradeL_trans hB (ih _ _ _ _ _)
    rw [if_neg c6]
    set cur := ivlStmtStart toks (ivlDotCallTok toks (ivlGateTok toks i)) with hcur
    by_cases c7 : strAt toks cur = "memset" ∧ strAt toks (cur + 1) = "("
        ∧ strAt toks (cur + 2) = "this" ∧ strAt toks (cur + 3) = ","
    · rw [if_pos c7]
      exact initUpgradeL_trans hB (setAllInit_upgrade _)
    rw [if_neg c7]
    by_cases c8 : strAt toks cur = "memset" ∧ strAt toks (cur + 1) = "("
        ∧ isNameTok (strAt toks (cur + 2)) = true ∧ strAt toks (cur + 3) = ","
    · rw [if_pos c8]
      rcases hl : link toks (cur + 1) with _ | l
      · exact initUpgradeL_trans hB (initVar_upgrade _ _)
      · exact initUpgradeL_trans hB
          (initUpgradeL_trans (initVar_upgrade _ _) (ih _ _ _ _ _))
    rw [if_neg c8]
    by_cases c10 : matchAt toks cur [.name, .lit "("] = true ∧ ¬(strAt toks cur = "if")
    · rw [if_pos c10]
      by_cases c11 : ivlPassesThis toks cur = true
      · rw [if_pos c11]
        exact initUpgradeL_trans hB (setAllInit_upgrade _)
      rw [if_neg c11]
      by_cases c12 : cs.contains (strAt toks cur) = true
      · rw [if_pos c12]
        exact initUpgradeL_trans hB (setAllInit_upgrade _)
      rw [if_neg c12]
      rcases ho : oracle tok1 (strAt toks (tok1 + 1)) (strAt toks cur)
          (decide (strAt toks tok1 = "struct")) with _ | ftok2
      · by_cases c14 : ivlUnknownBails toks tok1 (strAt toks (tok1 + 1))
            (strAt toks cur) = true
        · rw [if_pos c14]
          exact initUpgradeL_trans hB (setAllInit_upgrade _)
        · rw [if_neg c14]
          exact initUpgradeL_trans hB
            (initUpgradeL_trans (ivlArgScan_upgrade _ _ _ _ _) (ih _ _ _ _ _))
      · exact initUpgradeL_trans hB
          (initUpgradeL_trans (ih _ _ _ _ _)
            (initUpgradeL_trans (ivlClearMark_upgrade _ _ _) (ih _ _ _ _ _)))
    · rw [if_neg c10]
      exact initUpgradeL_trans hB
        (initUpgradeL_trans (ivlAssignMarks_upgrade _ _ _)
          (initUpgradeL_trans (ivlClearMark_upgrade _ _ _) (ih _ _ _ _ _)))

end CheckClass
